import Mathlib

/-!
Verification development for the automation core of the linkedin-cv-downloader
application (Electron + Playwright). The JavaScript sources are shallowly
embedded: DOM reads, random draws and filesystem probes become explicit oracle
inputs, stateful methods become pure state-passing functions, and thrown
exceptions become Option / sum results. Machine numbers are modelled as Nat or
Rat; where JavaScript number semantics matter (division by zero, NaN, Math.min)
an explicit JsNum type is used.

Sections, in order of the embedded source files:
  1. small JavaScript string / number helpers shared by several components
  2. StateManager.saveState, both shipped variants (state-manager.js)
  3. InteractionUtils.slowMouseMove (interaction-utils.js)
  4. ApplicantProcessor.updateProgress (applicant-processor.js)
  5. ApplicantProcessor.m_getUniqueFilePath (applicant-processor.js)
  6. ApplicantNameExtractor (applicant-name-extractor.js)
  7. PaginationManager (pagination-manager.js, extended revision)
  8. ApplicantProcessor.processCurrentPage / processSingleApplicant /
     tryDownloadCv (applicant-processor.js)
All theorems come after all definitions.
-/

namespace CvDl

/-! ### 1. JavaScript helpers -/

/-- JavaScript truthiness fallback for strings: a OR b picks a unless a is
the empty string (falsy). Mirrors the idiom x OR fallback used throughout
the processor. -/
def jsOr (a b : String) : String :=
  if a = "" then b else a

/-- Decimal digit test restricted to ASCII 0-9, as a plain match so that
kernel reduction works on it. -/
def digitB (c : Char) : Bool :=
  match c with
  | '0' => true | '1' => true | '2' => true | '3' => true | '4' => true
  | '5' => true | '6' => true | '7' => true | '8' => true | '9' => true
  | _ => false

/-- Numeric value of an ASCII decimal digit, 0 for anything else. -/
def digitVal (c : Char) : Nat :=
  match c with
  | '0' => 0 | '1' => 1 | '2' => 2 | '3' => 3 | '4' => 4
  | '5' => 5 | '6' => 6 | '7' => 7 | '8' => 8 | '9' => 9
  | _ => 0

/-- Value of a list of decimal digit characters read left to right,
most significant first. -/
def digitsListVal (ds : List Char) : Nat :=
  ds.foldl (fun acc c => 10 * acc + digitVal c) 0

/-- Model of the JavaScript parseInt applied with radix 10: skip leading
whitespace, an optional sign, then read leading decimal digits; none models
the NaN result when no digit is found. -/
def jsParseInt (s : String) : Option Int :=
  let cs := s.data.dropWhile Char.isWhitespace
  let neg : Bool := decide (cs.head? = some '-')
  let rest := if cs.head? = some '-' ∨ cs.head? = some '+' then cs.tail else cs
  let ds := rest.takeWhile digitB
  if ds = [] then none
  else some ((if neg then (-1 : Int) else 1) * (digitsListVal ds : Int))

/-- Digit characters of a positive natural number, most significant
first; fuel-based structural recursion so that the kernel can evaluate
it (any fuel at least n gives the full representation). -/
def natDecimalGo : Nat → Nat → List Char
  | 0, _ => []
  | fuel + 1, n =>
    if n = 0 then []
    else natDecimalGo fuel (n / 10) ++ [Nat.digitChar (n % 10)]

/-- Decimal string representation of a natural number, as produced by
JavaScript template interpolation of a number. -/
def natDecimal (n : Nat) : String :=
  if n = 0 then "0" else (natDecimalGo n n).asString

/-- JavaScript numbers restricted to what the progress computation can
produce: a finite rational, one of the two infinities, or NaN. -/
inductive JsNum where
  | num (q : ℚ)
  | posInf
  | negInf
  | nan
deriving DecidableEq

/-- JavaScript division a / b of two finite numbers: finite quotient when
b is nonzero, signed infinity for x / 0 with x nonzero, NaN for 0 / 0. -/
def jsDiv (a b : ℚ) : JsNum :=
  if b = 0 then
    if a = 0 then JsNum.nan
    else if 0 < a then JsNum.posInf
    else JsNum.negInf
  else JsNum.num (a / b)

/-- Multiplication of a JavaScript number by the positive literal 100. -/
def jsMul100 (x : JsNum) : JsNum :=
  match x with
  | JsNum.num q => JsNum.num (q * 100)
  | JsNum.posInf => JsNum.posInf
  | JsNum.negInf => JsNum.negInf
  | JsNum.nan => JsNum.nan

/-- Math.min on the JsNum model: NaN absorbs, otherwise the smaller value
with negInf below all finite numbers and posInf above. -/
def jsMin (a b : JsNum) : JsNum :=
  match a, b with
  | JsNum.nan, _ => JsNum.nan
  | _, JsNum.nan => JsNum.nan
  | JsNum.negInf, _ => JsNum.negInf
  | _, JsNum.negInf => JsNum.negInf
  | JsNum.posInf, y => y
  | x, JsNum.posInf => x
  | JsNum.num p, JsNum.num q => JsNum.num (min p q)

/-- Comparison x is at most the finite bound q; false when x is NaN
(mirroring that no JavaScript comparison with NaN holds). -/
def jsLeNum (x : JsNum) (q : ℚ) : Bool :=
  match x with
  | JsNum.num p => decide (p ≤ q)
  | JsNum.negInf => true
  | JsNum.posInf => false
  | JsNum.nan => false

/-! ### 2. StateManager.saveState - both shipped variants

A persisted JSON object is modelled extensionally as a partial map from key
strings to values; the value type is a parameter. The file on disk is an
Option of such an object, none meaning the file does not exist. -/

/-- A JSON object, extensionally: which value each key holds, if any. -/
def JsonObj (α : Type) : Type := String → Option α

/-- The empty JSON object. -/
def JsonObj.empty {α : Type} : JsonObj α := fun _ => none

/-- JavaScript object spread of upd over cur: keys of upd win, all other
keys keep the value from cur. -/
def JsonObj.spread {α : Type} (cur upd : JsonObj α) : JsonObj α :=
  fun k => match upd k with
    | some v => some v
    | none => cur k

namespace AppStateManager

/-- loadState of the merge StateManager variant: parse the file, and return
the empty object when the file is missing or invalid. -/
def loadState {α : Type} (file : Option (JsonObj α)) : JsonObj α :=
  file.getD JsonObj.empty

/-- saveState of the merge StateManager variant: read the current file,
spread the update over it, and write the merged object back. -/
def saveState {α : Type} (file : Option (JsonObj α)) (newState : JsonObj α) :
    Option (JsonObj α) :=
  some (JsonObj.spread (loadState file) newState)

end AppStateManager

namespace JobStateManager

/-- saveState of the overwrite StateManager variant: build a fresh object
holding a timestamp plus the keys of the update, and write it, replacing
the previous file content entirely. -/
def saveState {α : Type} (timestamp : α) (_file : Option (JsonObj α))
    (data : JsonObj α) : Option (JsonObj α) :=
  some (fun k => match data k with
    | some v => some v
    | none => if k = "timestamp" then some timestamp else none)

end JobStateManager

/-! ### 3. InteractionUtils.slowMouseMove

The pointer-path synthesizer. Every Math.random() draw that the source
consumes is an explicit rational input in the half-open unit interval.
The Math.sqrt of the travel distance is likewise an oracle input (dist),
since square roots are not rational; it only shifts the control points.
The dead draws of the source (arcDirection, arcIntensity, p1Offset, the
micro-pause coin flips) do not influence the emitted positions and are
omitted. -/

namespace InteractionUtils

/-- Inputs of one slowMouseMove call: the element bounding box, the start
position (the remembered last pointer position), the distance oracle, and
the random draws actually consumed by the path computation. -/
structure MoveParams where
  boxX : ℚ
  boxY : ℚ
  boxW : ℚ
  boxH : ℚ
  startX : ℚ
  startY : ℚ
  dist : ℚ
  rTx : ℚ
  rTy : ℚ
  rC1x : ℚ
  rC1y : ℚ
  rC2x : ℚ
  rC2y : ℚ
  rSteps : ℚ

/-- Target point: a random point inside the central 60 percent of the
bounding box. -/
def targetPoint (p : MoveParams) : ℚ × ℚ :=
  (p.boxX + p.boxW * (2 : ℚ) / 10 + p.rTx * (p.boxW * (6 : ℚ) / 10),
   p.boxY + p.boxH * (2 : ℚ) / 10 + p.rTy * (p.boxH * (6 : ℚ) / 10))

/-- Deviation amplitude for the control points: a quarter of the travel
distance, at least 50 pixels. -/
def deviation (p : MoveParams) : ℚ :=
  max 50 (p.dist * (25 : ℚ) / 100)

/-- The two Bezier control points, offset from the thirds of the straight
path by centered random multiples of the deviation. -/
def controlPoints (p : MoveParams) : (ℚ × ℚ) × (ℚ × ℚ) :=
  let t := targetPoint p
  let dX := t.1 - p.startX
  let dY := t.2 - p.startY
  let dev := deviation p
  (((p.startX + dX * (33 : ℚ) / 100 + (p.rC1x - 1/2) * dev),
    (p.startY + dY * (33 : ℚ) / 100 + (p.rC1y - 1/2) * dev)),
   ((p.startX + dX * (66 : ℚ) / 100 + (p.rC2x - 1/2) * dev),
    (p.startY + dY * (66 : ℚ) / 100 + (p.rC2y - 1/2) * dev)))

/-- Randomized step count: 30 plus the floor of rSteps times 30. -/
def stepsOf (p : MoveParams) : Nat :=
  30 + (⌊p.rSteps * 30⌋).toNat

/-- The emitted pointer positions, in order: for each i from 1 to steps,
the cubic Bezier position at the eased parameter, exactly as the loop body
of the source computes it with Math.pow. -/
def slowMouseMovePath (p : MoveParams) : List (ℚ × ℚ) :=
  let t := targetPoint p
  let c := controlPoints p
  let steps := stepsOf p
  (List.range steps).map (fun j =>
    let i : ℚ := (j : ℚ) + 1
    let tt : ℚ := i / (steps : ℚ)
    let sT : ℚ := tt * tt * (3 - 2 * tt)
    ((1 - sT) ^ 3 * p.startX + 3 * (1 - sT) ^ 2 * sT * c.1.1 +
       3 * (1 - sT) * sT ^ 2 * c.2.1 + sT ^ 3 * t.1,
     (1 - sT) ^ 3 * p.startY + 3 * (1 - sT) ^ 2 * sT * c.1.2 +
       3 * (1 - sT) * sT ^ 2 * c.2.2 + sT ^ 3 * t.2))

/-- Reference smoothstep easing function t * t * (3 - 2 t). -/
def smoothstep (t : ℚ) : ℚ := t * t * (3 - 2 * t)

/-- Reference cubic Bezier in Bernstein form through p0, c1, c2, p3. -/
def cubicBezier (p0 c1 c2 p3 : ℚ) (t : ℚ) : ℚ :=
  (1 - t) ^ 3 * p0 + 3 * (1 - t) ^ 2 * t * c1 + 3 * (1 - t) * t ^ 2 * c2 +
    t ^ 3 * p3

end InteractionUtils

/-! ### 4. ApplicantProcessor.updateProgress -/

namespace ApplicantProcessor

/-- The progressPercent computed by updateProgress: Math.min of 100 and
downloadCount divided by the configured maximum, times 100, in JavaScript
number semantics. -/
def updateProgressPercent (downloadCount maxCvCount : ℚ) : JsNum :=
  jsMin (JsNum.num 100) (jsMul100 (jsDiv downloadCount maxCvCount))

end ApplicantProcessor

/-! ### 5. ApplicantProcessor.m_getUniqueFilePath

The filesystem is modelled as the finite list of paths for which fs.access
succeeds. path.join is plain separator concatenation (the embedded names
contain no separators), and the extname / basename split takes the suffix
from the last dot, provided it is not the leading character. -/

namespace ApplicantProcessor

/-- Model of path.join for a directory and a file name. -/
def pathJoin (dir name : String) : String := dir ++ "/" ++ name

/-- Split a file name into base and extension, the extension starting at
the last dot when that dot is not the first character (mirroring
path.extname / path.basename on plain file names). -/
def splitExt (name : String) : String × String :=
  let cs := name.data
  let revIdx := cs.reverse.findIdx (fun c => c = '.')
  if revIdx < cs.length then
    let dotIdx := cs.length - 1 - revIdx
    if dotIdx = 0 then (name, "")
    else ((cs.take dotIdx).asString, (cs.drop dotIdx).asString)
  else (name, "")

/-- The versioned candidate file name carrying the collision counter. -/
def versionedName (base ext : String) (counter : Nat) : String :=
  base ++ "_v" ++ natDecimal counter ++ ext

/-- The loop of m_getUniqueFilePath: while the candidate path exists,
bump the counter and retry with the versioned name. The source loop is
unbounded; here it carries fuel, and the fuel chosen below is proved
sufficient, so the fuel-exhausted branch is never taken. -/
def getUniqueFilePathAux (fs : List String) (dir base ext : String) :
    Nat → Nat → String → String × String
  | 0, _, name => (pathJoin dir name, name)
  | fuel + 1, counter, name =>
    let p := pathJoin dir name
    if p ∈ fs then
      getUniqueFilePathAux fs dir base ext fuel (counter + 1)
        (versionedName base ext (counter + 1))
    else (p, name)

/-- m_getUniqueFilePath: starting from the original name with counter 1,
find the first collision-free path. Returns (filePath, uniqueFileName). -/
def getUniqueFilePath (fs : List String) (dir originalName : String) :
    String × String :=
  let be := splitExt originalName
  getUniqueFilePathAux fs dir be.1 be.2 (fs.length + 2) 1 originalName

/-- The sequence of candidate names the loop walks through: index 0 is the
original name, index k for positive k is the versioned name with counter
k + 1 (the k-th collision produces suffix v(k+1)). -/
def candName (base ext orig : String) : Nat → String
  | 0 => orig
  | k + 1 => versionedName base ext (k + 2)

end ApplicantProcessor

/-! ### 6. ApplicantNameExtractor

The DOM subtree of one list item is modelled by the four reads the strategy
chain performs; each is an Option, none when the locator matches nothing.
A readsFail flag models a throwing DOM read, which the source catches by
returning the empty string. -/

namespace ApplicantNameExtractor

/-- Observable inputs of extractName for one applicant card. -/
structure CardDom where
  cardTitle : Option String
  lockupTitle : Option String
  linkText : Option String
  imgAlt : Option (Option String)
  readsFail : Bool
deriving DecidableEq

/-- Denylist of placeholder labels rejected by the validity check. -/
def invalidNames : List String :=
  ["LinkedIn Üyesi", "LinkedIn Member", "Unknown", "Gizli"]

/-- Does the character list hay start with the character list pat. -/
def lStartsWith : List Char → List Char → Bool
  | [], _ => true
  | _ :: _, [] => false
  | p :: ps, c :: cs => decide (c = p) && lStartsWith ps cs

/-- Does hay contain pat as a contiguous substring (String.includes). -/
def strHasSub (hay pat : String) : Bool :=
  go hay.data
where
  go : List Char → Bool
  | [] => decide (pat.data = [])
  | c :: rest => lStartsWith pat.data (c :: rest) || go rest

/-- Trim of leading and trailing whitespace over the character list (the
behavior of the JavaScript String trim on these inputs). -/
def strTrim (s : String) : String :=
  (((s.data.dropWhile Char.isWhitespace).reverse.dropWhile
      Char.isWhitespace).reverse).asString

/-- Validity check m_isValidName: nonempty, trimmed length at least 2, and
containing no denylisted label. -/
def isValidName (text : String) : Bool :=
  if text = "" then false
  else
    let clean := strTrim text
    if clean.length < 2 then false
    else ! invalidNames.any (fun inv => strHasSub clean inv)

/-- ASCII word character in the sense of the JavaScript regex class w. -/
def isWordChar (c : Char) : Bool :=
  (('a' ≤ c && c ≤ 'z') || ('A' ≤ c && c ≤ 'Z') ||
   ('0' ≤ c && c ≤ '9') || c = '_')

/-- Case folding used for the case-insensitive literal matches. -/
def foldCase (c : Char) : Char := c.toLower

/-- Do the next chars of hay spell pat case-insensitively. -/
def ciStartsWith : List Char → List Char → Bool
  | [], _ => true
  | _ :: _, [] => false
  | p :: ps, c :: cs => decide (foldCase c = foldCase p) && ciStartsWith ps cs

/-- replace with the newline regex: every newline becomes a space. -/
def replaceNewlines (s : String) : String :=
  (s.data.map (fun c => if c = '\n' then ' ' else c)).asString

/-- Scanner of collapseWs: a maximal run of whitespace becomes one space.
Structural recursion on fuel so that the kernel can evaluate it; every
step consumes at least one character, so fuel equal to the list length
(as supplied by collapseWs) never runs out. -/
def collapseWsGo : Nat → List Char → List Char
  | 0, _ => []
  | _ + 1, [] => []
  | fuel + 1, c :: rest =>
    if c.isWhitespace then
      ' ' :: collapseWsGo fuel (rest.dropWhile Char.isWhitespace)
    else c :: collapseWsGo fuel rest

/-- replace with the whitespace-run regex: every maximal run of whitespace
becomes a single space. -/
def collapseWs (s : String) : String :=
  (collapseWsGo s.data.length s.data).asString

/-- Match test at one position for removeWordsCI: whether one of the
alternatives pats matches case-insensitively here with word boundaries on
both sides; prevWord is whether the previous kept character is a word
character. Returns the matched length. -/
def wordsMatchLen (pats : List (List Char)) (prevWord : Bool)
    (cs : List Char) : Option Nat :=
  pats.foldl (fun acc p =>
    match acc with
    | some n => some n
    | none =>
      if !prevWord && ciStartsWith p cs then
        match cs.drop p.length with
        | [] => some p.length
        | c :: _ => if isWordChar c then none else some p.length
      else none) none

/-- Scanner of removeWordsCI: on a match the matched characters are
dropped, otherwise the character is kept and the word-character state
updated. Fuel-based structural recursion; every step consumes at least
one character, so fuel equal to the list length never runs out. -/
def removeWordsCIGo (pats : List (List Char)) :
    Nat → Bool → List Char → List Char
  | 0, _, _ => []
  | _ + 1, _, [] => []
  | fuel + 1, prevWord, c :: rest =>
    match wordsMatchLen pats prevWord (c :: rest) with
    | some (n + 1) => removeWordsCIGo pats fuel false (rest.drop n)
    | _ => c :: removeWordsCIGo pats fuel (isWordChar c) rest

/-- One global regex pass removing case-insensitive word-bounded
occurrences of the literal alternatives in pats, scanning left to right
(all alternatives here are nonempty, so a match always consumes at least
one character). -/
def removeWordsCI (pats : List (List Char)) (s : String) : String :=
  (removeWordsCIGo pats s.data.length false s.data).asString

/-- Head of the degree-connection pattern: decimal digits followed by an
ordinal suffix st, nd, rd or th, case-insensitively. -/
def ordinalAfterDigits (cs : List Char) : Option Nat :=
  let ds := cs.takeWhile digitB
  if ds = [] then none
  else
    let rest := cs.drop ds.length
    if ciStartsWith ['s', 't'] rest || ciStartsWith ['n', 'd'] rest ||
       ciStartsWith ['r', 'd'] rest || ciStartsWith ['t', 'h'] rest then
      some (ds.length + 2)
    else none

/-- Head alternative 1-dot 2-dot 3-dot of the degree-connection pattern,
the dots being single-character wildcards. -/
def literalOneTwoThree (cs : List Char) : Option Nat :=
  match cs with
  | '1' :: _ :: ' ' :: '2' :: _ :: ' ' :: '3' :: _ :: _ => some 8
  | _ => none

/-- Tail of the degree-connection pattern: whitespace then the literal
degree connection, with a trailing word boundary. -/
def degreeTailMatch (cs : List Char) : Option Nat :=
  let ws := cs.takeWhile Char.isWhitespace
  if ws = [] then none
  else
    let rest := cs.drop ws.length
    if ciStartsWith ("degree connection".data) rest then
      match rest.drop 17 with
      | [] => some (ws.length + 17)
      | c :: _ => if isWordChar c then none else some (ws.length + 17)
    else none

/-- Full match test of the degree-connection regex at one position. -/
def degreeMatchLen (prevWord : Bool) (cs : List Char) : Option Nat :=
  if prevWord then none
  else
    let head :=
      match ordinalAfterDigits cs with
      | some n => some n
      | none => literalOneTwoThree cs
    match head with
    | none => none
    | some n =>
      match degreeTailMatch (cs.drop n) with
      | none => none
      | some m => some (n + m)

/-- Scanner of removeDegreeConn (every match consumes at least one
character, since the head group is nonempty); fuel-based structural
recursion with fuel equal to the list length. -/
def removeDegreeConnGo : Nat → Bool → List Char → List Char
  | 0, _, _ => []
  | _ + 1, _, [] => []
  | fuel + 1, prevWord, c :: rest =>
    match degreeMatchLen prevWord (c :: rest) with
    | some (n + 1) => removeDegreeConnGo fuel false (rest.drop n)
    | _ => c :: removeDegreeConnGo fuel (isWordChar c) rest

/-- One pass of the degree-connection regex: a word-bounded group that is
either digits followed by an ordinal suffix, or the literal-with-wildcards
1. 2. 3., then whitespace, then degree connection, word-bounded. -/
def removeDegreeConn (s : String) : String :=
  (removeDegreeConnGo s.data.length false s.data).asString

/-- The bullet regex: drop everything from the first bullet character on. -/
def stripBullet (s : String) : String :=
  (s.data.takeWhile (fun c => c ≠ '•')).asString

/-- m_cleanName: newline to space, whitespace collapse, removal of the
application suffix literals, removal of connection-degree text, bullet
truncation, final trim. -/
def cleanName (text : String) : String :=
  strTrim
    (stripBullet
      (removeDegreeConn
        (removeWordsCI [("adlı kullanıcının başvurusu".data), ("application".data)]
          (collapseWs (replaceNewlines text)))))

/-- Strategy 4 preprocessing: strip one trailing whitespace-plus-fotoğrafı
suffix from the image alt text, then trim. -/
def stripFotoSuffix (alt : String) : String :=
  let target := ("fotoğrafı".data)
  let cs := alt.data
  let n := cs.length
  if n ≥ target.length + 1 &&
     ciStartsWith target (cs.drop (n - target.length)) &&
     (cs.take (n - target.length)).getLast?.elim false Char.isWhitespace then
    strTrim ((cs.take (n - target.length)).asString)
  else strTrim alt

/-- First line of a text, as split on newline takes index 0: the prefix
before the first newline character. -/
def firstLine (t : String) : String :=
  (t.data.takeWhile (fun c => c ≠ '\n')).asString

/-- extractName: the strategy chain of the extractor, in source order.
Strategy 1 card title, strategy 2 first line of the lockup title,
strategy 3 nested link text, strategy 4 image alt text with the photo
suffix stripped; the first candidate passing isValidName is returned,
cleaned for strategies 1 to 3; empty string when no strategy fires or a
DOM read throws. -/
def extractName (d : CardDom) : String :=
  if d.readsFail then ""
  else
    match d.cardTitle with
    | some t =>
      if isValidName t then cleanName t else extractName2 d
    | none => extractName2 d
where
  extractName2 (d : CardDom) : String :=
    match d.lockupTitle with
    | some t =>
      if isValidName (firstLine t) then cleanName (firstLine t) else extractName3 d
    | none => extractName3 d
  extractName3 (d : CardDom) : String :=
    match d.linkText with
    | some t =>
      if isValidName t then cleanName t else extractName4 d
    | none => extractName4 d
  extractName4 (d : CardDom) : String :=
    match d.imgAlt with
    | some (some alt) =>
      if alt ≠ "" then
        let cleanAlt := stripFotoSuffix alt
        if isValidName cleanAlt then cleanAlt else ""
      else ""
    | _ => ""

/-- Candidate list abstraction of the chain: for each strategy, the raw
string the validity check inspects paired with the string the strategy
would return. Used to state the priority-order property. -/
def candidates (d : CardDom) : List (String × String) :=
  (match d.cardTitle with
   | some t => [(t, cleanName t)]
   | none => []) ++
  (match d.lockupTitle with
   | some t => [(firstLine t, cleanName (firstLine t))]
   | none => []) ++
  (match d.linkText with
   | some t => [(t, cleanName t)]
   | none => []) ++
  (match d.imgAlt with
   | some (some alt) =>
     if alt ≠ "" then [(stripFotoSuffix alt, stripFotoSuffix alt)] else []
   | _ => [])

/-- Specification form of the chain: the output of the first candidate
whose checked string is valid, or the empty string. -/
def extractNameSpec (d : CardDom) : String :=
  match (candidates d).find? (fun c => isValidName c.1) with
  | some c => c.2
  | none => ""

end ApplicantNameExtractor

/-! ### 7. PaginationManager

Two abstraction levels. getActivePageNumber is embedded exactly over the
observable read of the active-page indicator. navigateToPage is embedded
over a world model of the remote pagination bar: the set of rendered
page items as a function of the active page (numeric buttons as some n,
ellipsis or button-less items as none), a flag for the dedicated Next
button, and the click transitions of the real site (clicking a numeric
button activates that page; clicking Next or an advancing ellipsis moves
one page forward when a further page exists). -/

namespace PaginationManager

/-- Observable input of getActivePageNumber: the active-page indicator is
absent (none), present but throwing on read (error), or readable text. -/
structure ActivePageDom where
  indicator : Option (Except Unit String)

/-- getActivePageNumber: parseInt of the indicator text when the button is
present and readable, the default 1 when it is absent or reading throws.
The result none models the NaN value parseInt yields on non-numeric text.
The source wraps everything in try/catch, so the embedding is total and
never throws. -/
def getActivePageNumber (d : ActivePageDom) : Option Int :=
  match d.indicator with
  | none => some 1
  | some (Except.error _) => some 1
  | some (Except.ok text) => jsParseInt text

/-- World model of the pagination bar. -/
structure PagEnv where
  total : Nat
  window : Nat → List (Option Nat)
  nextBtn : Nat → Bool

/-- What switchToNextPage can click: the dedicated Next button, or the
page item immediately after the active one. -/
inductive NextTarget where
  | nextButton
  | item (it : Option Nat)

/-- The page item immediately following the active item. -/
def itemAfterCurrent (w : List (Option Nat)) (a : Nat) : Option (Option Nat) :=
  match w with
  | [] => none
  | x :: rest => if x = some a then rest.head? else itemAfterCurrent rest a

/-- Click target selection of switchToNextPage: prefer the Next button,
else the item after the active one. -/
def clickTargetOf (env : PagEnv) (a : Nat) : Option NextTarget :=
  if env.nextBtn a then some NextTarget.nextButton
  else (itemAfterCurrent (env.window a) a).map NextTarget.item

/-- Effect of clicking a next-target when page a is active: a numeric
button activates its number; the Next button and an advancing ellipsis
move forward one page when one exists, else nothing changes. -/
def nextClickEffect (env : PagEnv) (a : Nat) : NextTarget → Nat
  | NextTarget.nextButton => if a < env.total then a + 1 else a
  | NextTarget.item (some n) => n
  | NextTarget.item none => if a < env.total then a + 1 else a

/-- switchToNextPage: click the chosen target, then wait until the active
page number strictly increases; returns (success, new active page). With
no target or no strict increase the wait times out and false is returned. -/
def switchToNextPage (env : PagEnv) (a : Nat) : Bool × Nat :=
  match clickTargetOf env a with
  | none => (false, a)
  | some tgt =>
    let a2 := nextClickEffect env a tgt
    if a < a2 then (true, a2) else (false, a2)

/-- Best smart-jump candidate: the largest numeric button strictly between
the tracked current page and the target, scanning the rendered window. -/
def bestJump (w : List (Option Nat)) (cur target : Nat) : Option Nat :=
  w.foldl (fun acc it =>
    match it with
    | none => acc
    | some n =>
      if cur < n && n < target && (match acc with
          | none => true
          | some b => decide (b < n)) then some n
      else acc) none

/-- Result of navigateToPage: final active page, whether a warning was
emitted, and how many loop iterations ran. The function is total; no
error is ever raised. -/
structure NavResult where
  active : Nat
  warned : Bool
  iters : Nat
deriving DecidableEq

/-- The while loop of navigateToPage. fuel counts the loop iterations
still allowed before the infinite-loop guard (MAX LOOPS = 50) trips;
cur is the tracked currentPage variable, act the actual active page
(the two are re-synchronised from the DOM after every click). -/
def navLoop (env : PagEnv) (target : Nat) :
    Nat → Nat → Nat → Nat → NavResult
  | fuel, cur, act, iters =>
    if target ≤ cur then NavResult.mk act false iters
    else
      match fuel with
      | 0 => NavResult.mk act true iters
      | fuel + 1 =>
        if (env.window act).contains (some target) then
          NavResult.mk target false (iters + 1)
        else
          match bestJump (env.window act) cur target with
          | some n => navLoop env target fuel n n (iters + 1)
          | none =>
            if target ≤ act then NavResult.mk act false (iters + 1)
            else
              match switchToNextPage env act with
              | (true, a2) => navLoop env target fuel a2 a2 (iters + 1)
              | (false, a2) => NavResult.mk a2 true (iters + 1)

/-- navigateToPage for a start page a0: a target of 1 or less returns
immediately, otherwise the bounded loop runs with 50 iterations allowed. -/
def navigateToPage (env : PagEnv) (a0 target : Nat) : NavResult :=
  if target ≤ 1 then NavResult.mk a0 false 0
  else navLoop env target 50 a0 a0 0

end PaginationManager

/-! ### 8. ApplicantProcessor - the per-page processing loop

State-passing embedding of processCurrentPage, processSingleApplicant and
tryDownloadCv. All DOM observations, random draws and download outcomes
for one loop iteration are collected in an ItemEnv oracle; a run consumes
a list of such oracles, one per iteration. Pause is modelled as never
engaged (the pause loop blocks without changing state). Exceptions other
than the virus-scan marker that can escape processSingleApplicant
(selection click failures) are modelled by the selErr flag. -/

namespace ApplicantProcessor

/-- One recorded permanent failure (name, reason, page). -/
structure FailRec where
  name : String
  reason : String
  page : String
deriving DecidableEq

/-- Mutable processor state threaded through the loop. -/
structure ProcState where
  downloadCount : Nat
  processed : List String
  failed : List FailRec
  virusCount : Nat
  processedIndex : Nat
  stopped : Bool
deriving DecidableEq

/-- JavaScript Set add: append unless already present. -/
def setAdd (l : List String) (s : String) : List String :=
  if s ∈ l then l else l ++ [s]

/-- Add the name to the processed set when it is nonempty (the source
guards every add with a truthiness test). -/
def addIfNamed (l : List String) (name : String) : List String :=
  if name = "" then l else setAdd l name

/-- Observable events of one iteration used by the theorems: selection
clicks, download-control invocations, the virus-scan reload recovery,
the random idle simulation, and checkpoint saves. -/
inductive Action where
  | select
  | invoke
  | reloadRecovery
  | idle
  | save
deriving DecidableEq

/-- Exceptions escaping processSingleApplicant: the virus-scan marker
carrying the resolved applicant name, or any other error. -/
inductive ProcExn where
  | virus (name : String)
  | other
deriving DecidableEq

/-- Outcome of one download attempt: the control was found and the
download completed; the control was found but clicking or the download
event failed (with timeout flag and message); or no control was rendered,
with or without the virus-scan interstitial present. -/
inductive DlStep where
  | foundOk
  | foundFail (isTimeout : Bool) (msg : String)
  | noButton (virus : Bool)

/-- Oracle for one loop iteration: the rendered row count, the row count
after a lazy-load attempt, the extracted name, selection outcomes, the
per-attempt download outcomes, the fallback name reads, the page-number
read, and the idle coin flip (true when the idle random draw exceeded
the 0.7 threshold). -/
structure ItemEnv where
  count : Nat
  lazyNewCount : Nat
  name : String
  selErr : Bool
  selOk : Bool
  dl : Nat → DlStep
  panelName : Option String
  headerName : Option String
  pageNum : String
  idleDraw : Bool

/-- Name attached to the virus-scan error: the extracted name, else the
details-panel read, else the Unknown Applicant fallback. -/
def resolveVirusName (env : ItemEnv) (name : String) : String :=
  jsOr name (jsOr (env.panelName.getD ("")) ("Unknown Applicant"))

/-- Name recorded in failure records: the extracted name, else the
header read, else the Unknown Applicant fallback. -/
def resolveFailName (env : ItemEnv) (name : String) : String :=
  jsOr name (jsOr (env.headerName.getD ("")) ("Unknown Applicant"))

/-- The retry loop of tryDownloadCv. left counts the attempts still
available including the current one; the loop starts with the configured
7 attempts. Returns the new state, the emitted actions, and the virus
exception if thrown. -/
def tryDownloadCvGo (env : ItemEnv) (name : String) :
    Nat → ProcState → ProcState × List Action × Option ProcExn
  | 0, s => (s, [], none)
  | left + 1, s =>
    let attempt := 7 - left
    match env.dl attempt with
    | DlStep.noButton virus =>
      if virus then
        (s, [], some (ProcExn.virus (resolveVirusName env name)))
      else if left = 0 then
        ({ s with failed := s.failed ++
            [FailRec.mk (resolveFailName env name) ("No CV button found") env.pageNum] },
         [], none)
      else tryDownloadCvGo env name left s
    | DlStep.foundOk =>
      ({ s with downloadCount := s.downloadCount + 1 }, [Action.invoke], none)
    | DlStep.foundFail isTimeout msg =>
      if left = 0 then
        ({ s with failed := s.failed ++
            [FailRec.mk (resolveFailName env name)
              (if isTimeout then "Download timeout" else msg) env.pageNum] },
         [Action.invoke], none)
      else
        let r := tryDownloadCvGo env name left s
        (r.1, Action.invoke :: r.2.1, r.2.2)

/-- tryDownloadCv with its 7 configured attempts. -/
def tryDownloadCv (env : ItemEnv) (name : String) (s : ProcState) :
    ProcState × List Action × Option ProcExn :=
  tryDownloadCvGo env name 7 s

/-- processSingleApplicant: extract the name; skip silently when the
nonempty name is already processed; otherwise select (with retries inside
the source, collapsed into the selOk outcome), mark processed, and run
the download. Selection click errors propagate as other-exceptions. -/
def processSingleApplicant (env : ItemEnv) (s : ProcState) :
    ProcState × List Action × Option ProcExn :=
  if env.name ≠ "" ∧ env.name ∈ s.processed then (s, [], none)
  else if env.selErr then (s, [Action.select], some ProcExn.other)
  else if env.selOk = false then
    ({ s with processed := addIfNamed s.processed env.name }, [Action.select], none)
  else
    ((tryDownloadCv env env.name
        { s with processed := addIfNamed s.processed env.name }).1,
     Action.select ::
       (tryDownloadCv env env.name
         { s with processed := addIfNamed s.processed env.name }).2.1,
     (tryDownloadCv env env.name
       { s with processed := addIfNamed s.processed env.name }).2.2)

/-- Checkpoint payload written by saveProgress. -/
structure SaveSnap where
  processedApplicants : List String
  downloadCount : Nat
  failedApplicants : List FailRec
deriving DecidableEq

/-- The throttled saveProgress at the end of an iteration: a snapshot is
written when the processor is stopped or the download count is a multiple
of 5 (pause being modelled as off). -/
def saveProgressSnap (s : ProcState) : Option SaveSnap :=
  if s.stopped ∨ s.downloadCount % 5 = 0 then
    some (SaveSnap.mk s.processed s.downloadCount s.failed)
  else none

/-- How one loop iteration ended: the cursor advanced; the same index is
retried after a virus-scan reload; the run returned early (limit or
stop); the page is complete; or a lazy load grew the list. -/
inductive LoopSig where
  | advanced
  | retried
  | haltLimit
  | haltStop
  | pageDone
  | lazyGrew
deriving DecidableEq

/-- Result of one iteration of the processCurrentPage while loop. -/
structure LoopOut where
  state : ProcState
  acts : List Action
  snap : Option SaveSnap
  sig : LoopSig

/-- Epilogue of a normally-completed iteration: advance the cursor, run
the probabilistic idle simulation, and the throttled save. -/
def afterItem (env : ItemEnv) (s : ProcState) (acts : List Action) : LoopOut :=
  LoopOut.mk
    { s with processedIndex := s.processedIndex + 1 }
    (acts ++ (if env.idleDraw then [Action.idle] else []) ++
      (if (saveProgressSnap { s with processedIndex := s.processedIndex + 1 }).isSome
        then [Action.save] else []))
    (saveProgressSnap { s with processedIndex := s.processedIndex + 1 })
    LoopSig.advanced

/-- One iteration of the processCurrentPage while loop, driven by the
iteration oracle env. -/
def loopBody (maxCvCount : Nat) (env : ItemEnv) (s : ProcState) : LoopOut :=
  if s.stopped then LoopOut.mk s [] none LoopSig.haltStop
  else if env.count ≤ s.processedIndex then
    if env.count < env.lazyNewCount then LoopOut.mk s [] none LoopSig.lazyGrew
    else LoopOut.mk s [] none LoopSig.pageDone
  else if maxCvCount ≤ s.downloadCount then LoopOut.mk s [] none LoopSig.haltLimit
  else
    match (processSingleApplicant env s).2.2 with
    | none =>
      afterItem env { (processSingleApplicant env s).1 with virusCount := 0 }
        (processSingleApplicant env s).2.1
    | some ProcExn.other =>
      afterItem env { (processSingleApplicant env s).1 with virusCount := 0 }
        (processSingleApplicant env s).2.1
    | some (ProcExn.virus vName) =>
      if 3 ≤ s.virusCount then
        LoopOut.mk
          { (processSingleApplicant env s).1 with
            failed := (processSingleApplicant env s).1.failed ++
              [FailRec.mk (jsOr (env.headerName.getD ("")) ("Unknown"))
                ("Persistent Virus Scan (Max Retries Exceeded)") env.pageNum],
            virusCount := 0,
            processedIndex := (processSingleApplicant env s).1.processedIndex + 1 }
          (processSingleApplicant env s).2.1 none LoopSig.advanced
      else
        LoopOut.mk
          { (processSingleApplicant env s).1 with
            virusCount := s.virusCount + 1,
            processed :=
              if vName ∈ (processSingleApplicant env s).1.processed then
                (processSingleApplicant env s).1.processed.erase vName
              else (processSingleApplicant env s).1.processed }
          ((processSingleApplicant env s).2.1 ++ [Action.reloadRecovery])
          none LoopSig.retried

/-- Do these iteration signals end the page run (early return of
processCurrentPage or page completion). -/
def haltsRun (sig : LoopSig) : Bool :=
  match sig with
  | LoopSig.haltStop => true
  | LoopSig.haltLimit => true
  | LoopSig.pageDone => true
  | _ => false

/-- A run of the loop over a list of iteration oracles, accumulating the
emitted actions and the checkpoint snapshots in order. The run stops
early when an iteration signals a halt or page completion. -/
def runItems (maxCvCount : Nat) :
    List ItemEnv → ProcState → ProcState × List Action × List SaveSnap
  | [], s => (s, [], [])
  | env :: rest, s =>
    if haltsRun (loopBody maxCvCount env s).sig then
      ((loopBody maxCvCount env s).state, (loopBody maxCvCount env s).acts,
        (loopBody maxCvCount env s).snap.toList)
    else
      ((runItems maxCvCount rest (loopBody maxCvCount env s).state).1,
       (loopBody maxCvCount env s).acts ++
         (runItems maxCvCount rest (loopBody maxCvCount env s).state).2.1,
       (loopBody maxCvCount env s).snap.toList ++
         (runItems maxCvCount rest (loopBody maxCvCount env s).state).2.2)

end ApplicantProcessor

/-! ## Theorems -/

/-! ### Claim C6 - checkpoint saves and the frame of untouched keys -/

/-- Keys untouched by the update after a merge-variant save: spread keeps
the stored value wherever the update has no entry. -/
theorem appSaveState_spread_eq {α : Type} (cur upd : JsonObj α) (k : String) :
    ((AppStateManager.saveState (some cur) upd).getD JsonObj.empty) k =
      (match upd k with
       | some v => some v
       | none => cur k) := by
  simp [AppStateManager.saveState, AppStateManager.loadState, JsonObj.spread]

/-- C6 counterexample: the overwrite variant of StateManager.saveState
(the job-state revision) drops a stored key that the update does not
mention. With stored state holding key a and an update naming only key b,
the written file no longer contains key a, so the claimed read-merge-write
frame property is false for this shipped saveState. -/
theorem c6_overwrite_forgets_key :
    ((JobStateManager.saveState (0 : Nat)
        (some (fun k => if k = "a" then some 1 else none))
        (fun k => if k = "b" then some 2 else none)).getD JsonObj.empty) "a" = none
    ∧ (fun k => if k = "a" then some (1 : Nat) else none) "a" = some 1
    ∧ (fun k => if k = "b" then some (2 : Nat) else none) "a" = none := by
  refine ⟨?_, ?_, ?_⟩ <;> rfl

/-- C6 amended: the merge variant of StateManager.saveState (the app-state
revision) has the claimed read-merge-write frame property: every key
absent from the update keeps its stored value, and every key named in the
update takes the updated value; the repository also ships an overwrite
variant of saveState for which the property fails. -/
theorem c6_merge_save_frame {α : Type} (cur upd : JsonObj α) (k : String) :
    (upd k = none →
      ((AppStateManager.saveState (some cur) upd).getD JsonObj.empty) k = cur k)
    ∧ (∀ v, upd k = some v →
      ((AppStateManager.saveState (some cur) upd).getD JsonObj.empty) k = some v) := by
  constructor
  · intro h
    rw [appSaveState_spread_eq, h]
  · intro v h
    rw [appSaveState_spread_eq, h]

/-- C6 witness: the frame theorem applied to a concrete store and update. -/
theorem c6_merge_save_frame_witness :
    ((fun k => if k = "b" then some (2 : Nat) else none) "a" = none)
    ∧ ((AppStateManager.saveState
        (some (fun k => if k = "a" then some (1 : Nat) else none))
        (fun k => if k = "b" then some 2 else none)).getD JsonObj.empty) "a" = some 1 := by
  refine ⟨rfl, ?_⟩
  have h := (c6_merge_save_frame
    (fun k => if k = "a" then some (1 : Nat) else none)
    (fun k => if k = "b" then some 2 else none) "a").1 rfl
  rw [h]
  rfl

/-! ### Claim C1 - duplicate items are skipped without Select or Invoke -/

/-- C1: in an iteration of the page loop whose item has a nonempty
extracted identity already present in the processed set, no selection
click and no download invocation happens, and the per-page cursor still
advances by one; the download counter and the processed set are
untouched. -/
theorem c1_skip_duplicate_advances (maxCvCount : Nat)
    (env : ApplicantProcessor.ItemEnv) (s : ApplicantProcessor.ProcState)
    (hname : env.name ≠ "") (hmem : env.name ∈ s.processed)
    (hstop : s.stopped = false) (hidx : s.processedIndex < env.count)
    (hdc : s.downloadCount < maxCvCount) :
    ApplicantProcessor.Action.select ∉ (ApplicantProcessor.loopBody maxCvCount env s).acts
    ∧ ApplicantProcessor.Action.invoke ∉ (ApplicantProcessor.loopBody maxCvCount env s).acts
    ∧ (ApplicantProcessor.loopBody maxCvCount env s).state.processedIndex =
        s.processedIndex + 1
    ∧ (ApplicantProcessor.loopBody maxCvCount env s).sig =
        ApplicantProcessor.LoopSig.advanced
    ∧ (ApplicantProcessor.loopBody maxCvCount env s).state.processed = s.processed
    ∧ (ApplicantProcessor.loopBody maxCvCount env s).state.downloadCount =
        s.downloadCount := by
  have hskip : ApplicantProcessor.processSingleApplicant env s = (s, [], none) := by
    unfold ApplicantProcessor.processSingleApplicant
    rw [if_pos ⟨hname, hmem⟩]
  unfold ApplicantProcessor.loopBody
  rw [hstop]
  simp only [Bool.false_eq_true, if_false]
  rw [if_neg (by omega : ¬env.count ≤ s.processedIndex)]
  rw [if_neg (by omega : ¬maxCvCount ≤ s.downloadCount)]
  rw [hskip]
  simp only [ApplicantProcessor.afterItem, ApplicantProcessor.saveProgressSnap]
  split
  · split <;> simp_all
  · split <;> simp_all

/-- C1 witness: concrete duplicate item N in a state that already
processed N. -/
theorem c1_skip_duplicate_advances_witness :
    ApplicantProcessor.Action.select ∉
      (ApplicantProcessor.loopBody 10
        (ApplicantProcessor.ItemEnv.mk 5 5 "N" false true
          (fun _ => ApplicantProcessor.DlStep.foundOk) none none "1" false)
        (ApplicantProcessor.ProcState.mk 0 ["N"] [] 0 0 false)).acts
    ∧ (ApplicantProcessor.loopBody 10
        (ApplicantProcessor.ItemEnv.mk 5 5 "N" false true
          (fun _ => ApplicantProcessor.DlStep.foundOk) none none "1" false)
        (ApplicantProcessor.ProcState.mk 0 ["N"] [] 0 0 false)).state.processedIndex = 1 := by
  have h := c1_skip_duplicate_advances 10
    (ApplicantProcessor.ItemEnv.mk 5 5 "N" false true
      (fun _ => ApplicantProcessor.DlStep.foundOk) none none "1" false)
    (ApplicantProcessor.ProcState.mk 0 ["N"] [] 0 0 false)
    (by decide) (by decide) rfl (by decide) (by decide)
  exact ⟨h.1, h.2.2.1⟩

/-! ### Claim C3 - virus-scan recovery is bounded at three retries -/

/-- One virus-scan iteration while the retry counter is below 3: the
reload recovery fires, the counter increments, the cursor stays, and the
processed set is restored (the just-added identity is deleted again). -/
theorem loopBody_virus_retry (maxCvCount : Nat)
    (env : ApplicantProcessor.ItemEnv) (s : ApplicantProcessor.ProcState)
    (hvc : s.virusCount < 3)
    (hname : env.name ≠ "") (hmem : env.name ∉ s.processed)
    (hserr : env.selErr = false) (hsel : env.selOk = true)
    (hdl : env.dl 1 = ApplicantProcessor.DlStep.noButton true)
    (hstop : s.stopped = false) (hidx : s.processedIndex < env.count)
    (hdc : s.downloadCount < maxCvCount) :
    ApplicantProcessor.loopBody maxCvCount env s =
      ApplicantProcessor.LoopOut.mk
        { s with virusCount := s.virusCount + 1 }
        [ApplicantProcessor.Action.select, ApplicantProcessor.Action.reloadRecovery]
        none ApplicantProcessor.LoopSig.retried := by
  have hvn : ApplicantProcessor.resolveVirusName env env.name = env.name := by
    unfold ApplicantProcessor.resolveVirusName jsOr
    rw [if_neg hname]
  have hdl7 : ApplicantProcessor.tryDownloadCvGo env env.name 7
      { s with processed := ApplicantProcessor.addIfNamed s.processed env.name } =
      ({ s with processed := ApplicantProcessor.addIfNamed s.processed env.name },
        [], some (ApplicantProcessor.ProcExn.virus env.name)) := by
    unfold ApplicantProcessor.tryDownloadCvGo
    simp only [hdl, hvn]
    simp
  have hsingle : ApplicantProcessor.processSingleApplicant env s =
      ({ s with processed := s.processed ++ [env.name] },
        [ApplicantProcessor.Action.select],
        some (ApplicantProcessor.ProcExn.virus env.name)) := by
    unfold ApplicantProcessor.processSingleApplicant
    rw [if_neg (by tauto : ¬(env.name ≠ "" ∧ env.name ∈ s.processed))]
    rw [hserr]
    simp only [Bool.false_eq_true, if_false]
    rw [hsel]
    simp only [if_neg (by simp : ¬(true : Bool) = false)]
    unfold ApplicantProcessor.tryDownloadCv
    rw [hdl7]
    simp [ApplicantProcessor.addIfNamed, ApplicantProcessor.setAdd, hname, hmem]
  unfold ApplicantProcessor.loopBody
  rw [hstop]
  simp only [Bool.false_eq_true, if_false]
  rw [if_neg (by omega : ¬env.count ≤ s.processedIndex)]
  rw [if_neg (by omega : ¬maxCvCount ≤ s.downloadCount)]
  rw [hsingle]
  simp only
  rw [if_neg (by omega : ¬3 ≤ s.virusCount)]
  have hmem2 : env.name ∈ s.processed ++ [env.name] := by simp
  rw [if_pos hmem2]
  have herase : (s.processed ++ [env.name]).erase env.name = s.processed := by
    rw [List.erase_append_right _ hmem, List.erase_cons_head]
    simp
  rw [herase]
  simp [hstop]

/-- The fourth consecutive virus-scan failure for the same item: one
failure record is appended, the counter resets, and the cursor advances
past the item (whose identity stays in the processed set). -/
theorem loopBody_virus_fail (maxCvCount : Nat)
    (env : ApplicantProcessor.ItemEnv) (s : ApplicantProcessor.ProcState)
    (hvc : s.virusCount = 3)
    (hname : env.name ≠ "") (hmem : env.name ∉ s.processed)
    (hserr : env.selErr = false) (hsel : env.selOk = true)
    (hdl : env.dl 1 = ApplicantProcessor.DlStep.noButton true)
    (hstop : s.stopped = false) (hidx : s.processedIndex < env.count)
    (hdc : s.downloadCount < maxCvCount) :
    ApplicantProcessor.loopBody maxCvCount env s =
      ApplicantProcessor.LoopOut.mk
        { s with
            processed := s.processed ++ [env.name],
            failed := s.failed ++
              [ApplicantProcessor.FailRec.mk
                (jsOr (env.headerName.getD ("")) ("Unknown"))
                ("Persistent Virus Scan (Max Retries Exceeded)") env.pageNum],
            virusCount := 0,
            processedIndex := s.processedIndex + 1 }
        [ApplicantProcessor.Action.select]
        none ApplicantProcessor.LoopSig.advanced := by
  have hvn : ApplicantProcessor.resolveVirusName env env.name = env.name := by
    unfold ApplicantProcessor.resolveVirusName jsOr
    rw [if_neg hname]
  have hdl7 : ApplicantProcessor.tryDownloadCvGo env env.name 7
      { s with processed := ApplicantProcessor.addIfNamed s.processed env.name } =
      ({ s with processed := ApplicantProcessor.addIfNamed s.processed env.name },
        [], some (ApplicantProcessor.ProcExn.virus env.name)) := by
    unfold ApplicantProcessor.tryDownloadCvGo
    simp only [hdl, hvn]
    simp
  have hsingle : ApplicantProcessor.processSingleApplicant env s =
      ({ s with processed := s.processed ++ [env.name] },
        [ApplicantProcessor.Action.select],
        some (ApplicantProcessor.ProcExn.virus env.name)) := by
    unfold ApplicantProcessor.processSingleApplicant
    rw [if_neg (by tauto : ¬(env.name ≠ "" ∧ env.name ∈ s.processed))]
    rw [hserr]
    simp only [Bool.false_eq_true, if_false]
    rw [hsel]
    simp only [if_neg (by simp : ¬(true : Bool) = false)]
    unfold ApplicantProcessor.tryDownloadCv
    rw [hdl7]
    simp [ApplicantProcessor.addIfNamed, ApplicantProcessor.setAdd, hname, hmem]
  unfold ApplicantProcessor.loopBody
  rw [hstop]
  simp only [Bool.false_eq_true, if_false]
  rw [if_neg (by omega : ¬env.count ≤ s.processedIndex)]
  rw [if_neg (by omega : ¬maxCvCount ≤ s.downloadCount)]
  rw [hsingle]
  simp only
  rw [if_pos (by omega : 3 ≤ s.virusCount)]
  simp [hstop, hvc]

/-- C3: four consecutive virus-scan outcomes for the same item, starting
with a fresh retry counter, trigger the reload recovery exactly 3 times,
then record the item as exactly one FailureRecord and advance the cursor
by one; the counter is reset and no checkpoint save happens inside the
recovery iterations. -/
theorem c3_virus_recovery_bounded (maxCvCount : Nat)
    (env : ApplicantProcessor.ItemEnv) (s : ApplicantProcessor.ProcState)
    (hvc : s.virusCount = 0)
    (hname : env.name ≠ "") (hmem : env.name ∉ s.processed)
    (hserr : env.selErr = false) (hsel : env.selOk = true)
    (hdl : env.dl 1 = ApplicantProcessor.DlStep.noButton true)
    (hstop : s.stopped = false) (hidx : s.processedIndex < env.count)
    (hdc : s.downloadCount < maxCvCount) :
    ((ApplicantProcessor.runItems maxCvCount [env, env, env, env] s).2.1.count
        ApplicantProcessor.Action.reloadRecovery = 3)
    ∧ (ApplicantProcessor.runItems maxCvCount [env, env, env, env] s).1.failed =
        s.failed ++
          [ApplicantProcessor.FailRec.mk
            (jsOr (env.headerName.getD ("")) ("Unknown"))
            ("Persistent Virus Scan (Max Retries Exceeded)") env.pageNum]
    ∧ (ApplicantProcessor.runItems maxCvCount [env, env, env, env] s).1.processedIndex =
        s.processedIndex + 1
    ∧ (ApplicantProcessor.runItems maxCvCount [env, env, env, env] s).1.virusCount = 0
    ∧ (ApplicantProcessor.runItems maxCvCount [env, env, env, env] s).2.2 = [] := by
  have h1 := loopBody_virus_retry maxCvCount env s (by omega) hname hmem hserr hsel hdl
    hstop hidx hdc
  have h2 := loopBody_virus_retry maxCvCount env
    { s with virusCount := s.virusCount + 1 } (by simp; omega) hname hmem hserr hsel hdl
    hstop hidx hdc
  have h3 := loopBody_virus_retry maxCvCount env
    { s with virusCount := s.virusCount + 1 + 1 } (by simp; omega) hname hmem hserr hsel hdl
    hstop hidx hdc
  have h4 := loopBody_virus_fail maxCvCount env
    { s with virusCount := s.virusCount + 1 + 1 + 1 } (by simp; omega) hname hmem hserr hsel
    hdl hstop hidx hdc
  unfold ApplicantProcessor.runItems
  rw [h1]
  dsimp only [ApplicantProcessor.haltsRun]
  simp only [Bool.false_eq_true, if_false]
  unfold ApplicantProcessor.runItems
  rw [h2]
  dsimp only [ApplicantProcessor.haltsRun]
  simp only [Bool.false_eq_true, if_false]
  unfold ApplicantProcessor.runItems
  rw [h3]
  dsimp only [ApplicantProcessor.haltsRun]
  simp only [Bool.false_eq_true, if_false]
  unfold ApplicantProcessor.runItems
  rw [h4]
  dsimp only [ApplicantProcessor.haltsRun]
  simp only [Bool.false_eq_true, if_false]
  unfold ApplicantProcessor.runItems
  refine ⟨?_, ?_, ?_, ?_, ?_⟩ <;>
    simp [List.count_cons, List.count_append]

/-- C3 witness: a concrete item V failing with the virus interstitial
four times in a row. -/
theorem c3_virus_recovery_bounded_witness :
    ((ApplicantProcessor.runItems 10
        [ApplicantProcessor.ItemEnv.mk 5 5 "V" false true
          (fun _ => ApplicantProcessor.DlStep.noButton true) none (some "Hdr") "2" false,
         ApplicantProcessor.ItemEnv.mk 5 5 "V" false true
          (fun _ => ApplicantProcessor.DlStep.noButton true) none (some "Hdr") "2" false,
         ApplicantProcessor.ItemEnv.mk 5 5 "V" false true
          (fun _ => ApplicantProcessor.DlStep.noButton true) none (some "Hdr") "2" false,
         ApplicantProcessor.ItemEnv.mk 5 5 "V" false true
          (fun _ => ApplicantProcessor.DlStep.noButton true) none (some "Hdr") "2" false]
        (ApplicantProcessor.ProcState.mk 0 [] [] 0 0 false)).2.1.count
        ApplicantProcessor.Action.reloadRecovery = 3)
    ∧ (ApplicantProcessor.runItems 10
        [ApplicantProcessor.ItemEnv.mk 5 5 "V" false true
          (fun _ => ApplicantProcessor.DlStep.noButton true) none (some "Hdr") "2" false,
         ApplicantProcessor.ItemEnv.mk 5 5 "V" false true
          (fun _ => ApplicantProcessor.DlStep.noButton true) none (some "Hdr") "2" false,
         ApplicantProcessor.ItemEnv.mk 5 5 "V" false true
          (fun _ => ApplicantProcessor.DlStep.noButton true) none (some "Hdr") "2" false,
         ApplicantProcessor.ItemEnv.mk 5 5 "V" false true
          (fun _ => ApplicantProcessor.DlStep.noButton true) none (some "Hdr") "2" false]
        (ApplicantProcessor.ProcState.mk 0 [] [] 0 0 false)).1.failed =
        [ApplicantProcessor.FailRec.mk "Hdr"
          "Persistent Virus Scan (Max Retries Exceeded)" "2"] := by
  have h := c3_virus_recovery_bounded 10
    (ApplicantProcessor.ItemEnv.mk 5 5 "V" false true
      (fun _ => ApplicantProcessor.DlStep.noButton true) none (some "Hdr") "2" false)
    (ApplicantProcessor.ProcState.mk 0 [] [] 0 0 false)
    rfl (by decide) (by decide) rfl rfl rfl rfl (by decide) (by decide)
  refine ⟨h.1, ?_⟩
  have h2 := h.2.1
  simpa using h2

/-! ### Claim C2 - what survives between checkpoint saves -/

/-- The download counter never decreases through the retry loop of
tryDownloadCv, and the processed set is untouched by it. -/
theorem tryDownloadCvGo_monotone (env : ApplicantProcessor.ItemEnv)
    (name : String) :
    ∀ left s,
      s.downloadCount ≤ (ApplicantProcessor.tryDownloadCvGo env name left s).1.downloadCount
      ∧ (ApplicantProcessor.tryDownloadCvGo env name left s).1.processed = s.processed := by
  intro left
  induction left with
  | zero =>
    intro s
    exact ⟨le_rfl, rfl⟩
  | succ left ih =>
    intro s
    unfold ApplicantProcessor.tryDownloadCvGo
    cases hdl : env.dl (7 - left) with
    | noButton virus =>
      by_cases hv : virus = true
      · simp [hdl, hv]
      · by_cases hl : left = 0
        · subst hl
          simp [hdl, hv]
        · simp only [hdl, hv, Bool.false_eq_true, if_false, hl]
          simpa using ih s
    | foundOk => simp [hdl]
    | foundFail isTimeout msg =>
      by_cases hl : left = 0
      · subst hl
        simp [hdl]
      · simp only [hdl, hl, if_false]
        simpa using ih s

/-- A set add only grows the underlying list. -/
theorem addIfNamed_subset (l : List String) (n : String) :
    l ⊆ ApplicantProcessor.addIfNamed l n := by
  unfold ApplicantProcessor.addIfNamed ApplicantProcessor.setAdd
  split
  · exact fun x hx => hx
  · split
    · exact fun x hx => hx
    · exact fun x hx => List.mem_append_left _ hx

/-- processSingleApplicant never lowers the download counter and only
grows the processed set. -/
theorem processSingleApplicant_monotone (env : ApplicantProcessor.ItemEnv)
    (s : ApplicantProcessor.ProcState) :
    s.downloadCount ≤ (ApplicantProcessor.processSingleApplicant env s).1.downloadCount
    ∧ s.processed ⊆ (ApplicantProcessor.processSingleApplicant env s).1.processed := by
  unfold ApplicantProcessor.processSingleApplicant
  split
  · exact ⟨le_rfl, fun x hx => hx⟩
  · split
    · exact ⟨le_rfl, fun x hx => hx⟩
    · split
      · exact ⟨le_rfl, addIfNamed_subset _ _⟩
      · have h := tryDownloadCvGo_monotone env env.name 7
          { s with processed := ApplicantProcessor.addIfNamed s.processed env.name }
        unfold ApplicantProcessor.tryDownloadCv
        refine ⟨h.1, ?_⟩
        intro x hx
        rw [h.2]
        exact addIfNamed_subset _ _ hx

/-- The state produced by the iteration epilogue: only the cursor moves. -/
theorem afterItem_state (env : ApplicantProcessor.ItemEnv)
    (s2 : ApplicantProcessor.ProcState) (acts : List ApplicantProcessor.Action) :
    (ApplicantProcessor.afterItem env s2 acts).state =
      { s2 with processedIndex := s2.processedIndex + 1 } := rfl

/-- The snapshot produced by the iteration epilogue is the throttled save
of the advanced state. -/
theorem afterItem_snap (env : ApplicantProcessor.ItemEnv)
    (s2 : ApplicantProcessor.ProcState) (acts : List ApplicantProcessor.Action) :
    (ApplicantProcessor.afterItem env s2 acts).snap =
      ApplicantProcessor.saveProgressSnap
        { s2 with processedIndex := s2.processedIndex + 1 } := rfl

/-- The epilogue emits no reload recovery. -/
theorem afterItem_no_reload (env : ApplicantProcessor.ItemEnv)
    (s2 : ApplicantProcessor.ProcState) (acts : List ApplicantProcessor.Action)
    (h : ApplicantProcessor.Action.reloadRecovery ∉ acts) :
    ApplicantProcessor.Action.reloadRecovery ∉
      (ApplicantProcessor.afterItem env s2 acts).acts := by
  unfold ApplicantProcessor.afterItem
  dsimp only
  split_ifs <;> simp_all

/-- One loop iteration never lowers the download counter. -/
theorem loopBody_dc_monotone (maxCvCount : Nat)
    (env : ApplicantProcessor.ItemEnv) (s : ApplicantProcessor.ProcState) :
    s.downloadCount ≤ (ApplicantProcessor.loopBody maxCvCount env s).state.downloadCount := by
  have hsingle := processSingleApplicant_monotone env s
  unfold ApplicantProcessor.loopBody
  split
  · exact le_rfl
  · split
    · split <;> exact le_rfl
    · split
      · exact le_rfl
      · split
        · rw [afterItem_state]
          exact hsingle.1
        · rw [afterItem_state]
          exact hsingle.1
        · split <;> exact hsingle.1

/-- When the virus-scan reload recovery does not fire in an iteration,
the processed set only grows. -/
theorem loopBody_processed_grows (maxCvCount : Nat)
    (env : ApplicantProcessor.ItemEnv) (s : ApplicantProcessor.ProcState)
    (hno : ApplicantProcessor.Action.reloadRecovery ∉
      (ApplicantProcessor.loopBody maxCvCount env s).acts) :
    s.processed ⊆ (ApplicantProcessor.loopBody maxCvCount env s).state.processed := by
  have hsingle := processSingleApplicant_monotone env s
  revert hno
  unfold ApplicantProcessor.loopBody
  split
  · exact fun _ x hx => hx
  · split
    · split <;> exact fun _ x hx => hx
    · split
      · exact fun _ x hx => hx
      · split
        · intro _
          rw [afterItem_state]
          exact hsingle.2
        · intro _
          rw [afterItem_state]
          exact hsingle.2
        · split
          · intro _
            exact hsingle.2
          · intro hno
            exact absurd (by simp : ApplicantProcessor.Action.reloadRecovery ∈ _) hno

/-- A written snapshot carries exactly the state at the moment of the
save. -/
theorem loopBody_snap_state (maxCvCount : Nat)
    (env : ApplicantProcessor.ItemEnv) (s : ApplicantProcessor.ProcState)
    (snap : ApplicantProcessor.SaveSnap)
    (h : (ApplicantProcessor.loopBody maxCvCount env s).snap = some snap) :
    snap.downloadCount = (ApplicantProcessor.loopBody maxCvCount env s).state.downloadCount
    ∧ snap.processedApplicants = (ApplicantProcessor.loopBody maxCvCount env s).state.processed := by
  revert h
  unfold ApplicantProcessor.loopBody
  split
  · intro h; cases h
  · split
    · split <;> (intro h; cases h)
    · split
      · intro h; cases h
      · have hafter : ∀ s2 acts,
            (ApplicantProcessor.afterItem env s2 acts).snap = some snap →
            snap.downloadCount = (ApplicantProcessor.afterItem env s2 acts).state.downloadCount
            ∧ snap.processedApplicants = (ApplicantProcessor.afterItem env s2 acts).state.processed := by
          intro s2 acts h
          rw [afterItem_snap] at h
          rw [afterItem_state]
          revert h
          unfold ApplicantProcessor.saveProgressSnap
          split
          · intro h
            simp only [Option.some.injEq] at h
            subst h
            exact ⟨rfl, rfl⟩
          · intro h; cases h
        split
        · exact hafter _ _
        · exact hafter _ _
        · split <;> (intro h; cases h)

/-- Monotone run invariant: along a run, the download counts of the
written snapshots form a nondecreasing chain whose first element is at
least the starting count. -/
theorem runItems_dc_chain (maxCvCount : Nat) :
    ∀ (envs : List ApplicantProcessor.ItemEnv) (s : ApplicantProcessor.ProcState),
      List.Chain' (fun a b => a.downloadCount ≤ b.downloadCount)
        (ApplicantProcessor.runItems maxCvCount envs s).2.2
      ∧ (∀ x ∈ (ApplicantProcessor.runItems maxCvCount envs s).2.2.head?,
          s.downloadCount ≤ x.downloadCount) := by
  intro envs
  induction envs with
  | nil =>
    intro s
    constructor
    · simp [ApplicantProcessor.runItems]
    · simp [ApplicantProcessor.runItems]
  | cons env rest ih =>
    intro s
    have hdc := loopBody_dc_monotone maxCvCount env s
    unfold ApplicantProcessor.runItems
    set o := ApplicantProcessor.loopBody maxCvCount env s with ho
    have hsnap : ∀ sn ∈ o.snap, sn.downloadCount = o.state.downloadCount := by
      intro sn hsn
      exact (loopBody_snap_state maxCvCount env s sn hsn).1
    have hrest := ih o.state
    by_cases hh : ApplicantProcessor.haltsRun o.sig = true
    · rw [if_pos hh]
      refine ⟨?_, ?_⟩
      · cases hsn : o.snap <;> simp [hsn]
      · cases hsn : o.snap with
        | none => simp [hsn]
        | some sn =>
          intro x hx
          simp only [hsn, Option.toList_some, List.head?_cons, Option.mem_def,
            Option.some.injEq] at hx
          subst hx
          rw [hsnap sn (by rw [hsn]; rfl)]
          exact hdc
    · rw [if_neg hh]
      cases hsn : o.snap with
      | none =>
        simp only [hsn, Option.toList_none, List.nil_append]
        exact ⟨hrest.1, fun x hx => le_trans hdc (hrest.2 x hx)⟩
      | some sn =>
        have hsneq := hsnap sn (by rw [hsn]; rfl)
        simp only [hsn, Option.toList_some, List.singleton_append]
        constructor
        · rw [List.chain'_cons']
          refine ⟨fun y hy => ?_, hrest.1⟩
          rw [hsneq]
          exact hrest.2 y hy
        · intro x hx
          simp only [List.head?_cons, Option.mem_def, Option.some.injEq] at hx
          subst hx
          rw [hsneq]
          exact hdc

/-- Growth invariant for runs without virus-scan recoveries: the
processed sets of the written snapshots form a chain under inclusion
whose first element includes the starting set. -/
theorem runItems_set_chain (maxCvCount : Nat) :
    ∀ (envs : List ApplicantProcessor.ItemEnv) (s : ApplicantProcessor.ProcState),
      ApplicantProcessor.Action.reloadRecovery ∉
        (ApplicantProcessor.runItems maxCvCount envs s).2.1 →
      List.Chain' (fun a b => a.processedApplicants ⊆ b.processedApplicants)
        (ApplicantProcessor.runItems maxCvCount envs s).2.2
      ∧ (∀ x ∈ (ApplicantProcessor.runItems maxCvCount envs s).2.2.head?,
          s.processed ⊆ x.processedApplicants) := by
  intro envs
  induction envs with
  | nil =>
    intro s _
    constructor
    · simp [ApplicantProcessor.runItems]
    · simp [ApplicantProcessor.runItems]
  | cons env rest ih =>
    intro s hno
    unfold ApplicantProcessor.runItems at hno ⊢
    set o := ApplicantProcessor.loopBody maxCvCount env s with ho
    have hsnap : ∀ sn ∈ o.snap, sn.processedApplicants = o.state.processed := by
      intro sn hsn
      exact (loopBody_snap_state maxCvCount env s sn hsn).2
    by_cases hh : ApplicantProcessor.haltsRun o.sig = true
    · rw [if_pos hh] at hno ⊢
      have hgrow := loopBody_processed_grows maxCvCount env s hno
      refine ⟨?_, ?_⟩
      · cases hsn : o.snap <;> simp [hsn]
      · cases hsn : o.snap with
        | none => simp [hsn]
        | some sn =>
          intro x hx
          simp only [hsn, Option.toList_some, List.head?_cons, Option.mem_def,
            Option.some.injEq] at hx
          subst hx
          rw [hsnap sn (by rw [hsn]; rfl)]
          exact hgrow
    · rw [if_neg hh] at hno ⊢
      rw [List.mem_append] at hno
      push_neg at hno
      have hnoBody : ApplicantProcessor.Action.reloadRecovery ∉ o.acts := hno.1
      have hnoRest : ApplicantProcessor.Action.reloadRecovery ∉
          (ApplicantProcessor.runItems maxCvCount rest o.state).2.1 := hno.2
      have hgrow := loopBody_processed_grows maxCvCount env s hnoBody
      have hrest := ih o.state hnoRest
      cases hsn : o.snap with
      | none =>
        simp only [hsn, Option.toList_none, List.nil_append]
        exact ⟨hrest.1, fun x hx => Set.Subset.trans hgrow (hrest.2 x hx)⟩
      | some sn =>
        have hsneq := hsnap sn (by rw [hsn]; rfl)
        simp only [hsn, Option.toList_some, List.singleton_append]
        constructor
        · rw [List.chain'_cons']
          refine ⟨fun y hy => ?_, hrest.1⟩
          rw [hsneq]
          exact hrest.2 y hy
        · intro x hx
          simp only [List.head?_cons, Option.mem_def, Option.some.injEq] at hx
          subst hx
          rw [hsneq]
          exact hgrow

/-- C2 counterexample: a concrete run in which the processed-identity set
written at one checkpoint save loses an element (and shrinks in
cardinality) by the next save. The hydrated state already holds identity
N; one item is processed and saved (set N, B of size 2); the next item
extracts no identity and hits the virus interstitial whose resolved name
is N, so the recovery branch deletes N from the set; the following item
completes and saves (set B of size 1). successCount stays 0 throughout. -/
theorem c2_processed_set_shrinks_between_saves :
    (ApplicantProcessor.runItems 10
      [ApplicantProcessor.ItemEnv.mk 5 5 "B" false false
          (fun _ => ApplicantProcessor.DlStep.foundOk) none none "1" false,
       ApplicantProcessor.ItemEnv.mk 5 5 "" false true
          (fun _ => ApplicantProcessor.DlStep.noButton true) (some "N") none "1" false,
       ApplicantProcessor.ItemEnv.mk 5 5 "" false false
          (fun _ => ApplicantProcessor.DlStep.foundOk) none none "1" false]
      (ApplicantProcessor.ProcState.mk 0 ["N"] [] 0 0 false)).2.2 =
      [ApplicantProcessor.SaveSnap.mk ["N", "B"] 0 [],
       ApplicantProcessor.SaveSnap.mk ["B"] 0 []]
    ∧ ("N" ∈ ["N", "B"] ∧ "N" ∉ ["B"])
    ∧ (["B"] : List String).length < (["N", "B"] : List String).length := by
  refine ⟨by rfl, by decide, by decide⟩

/-- C2 amended: within a run, successCount (downloadCount) never
decreases across sequential checkpoint saves; and in any run in which the
virus-scan reload recovery never fires, processedItemKeys only grows
between saves. The unrestricted claim is false: the recovery branch
deletes the triggering identity from the set, so the set and its
cardinality can shrink between saves (see the counterexample). -/
theorem c2_monotone_saves (maxCvCount : Nat)
    (envs : List ApplicantProcessor.ItemEnv) (s : ApplicantProcessor.ProcState) :
    List.Chain' (fun a b => a.downloadCount ≤ b.downloadCount)
      (ApplicantProcessor.runItems maxCvCount envs s).2.2
    ∧ (ApplicantProcessor.Action.reloadRecovery ∉
        (ApplicantProcessor.runItems maxCvCount envs s).2.1 →
      List.Chain' (fun a b => a.processedApplicants ⊆ b.processedApplicants)
        (ApplicantProcessor.runItems maxCvCount envs s).2.2) :=
  ⟨(runItems_dc_chain maxCvCount envs s).1,
   fun hno => (runItems_set_chain maxCvCount envs s hno).1⟩

/-- C2 witness: the amended theorem applied to a concrete virus-free run
of two successful downloads. -/
theorem c2_monotone_saves_witness :
    List.Chain' (fun a b => a.downloadCount ≤ b.downloadCount)
      (ApplicantProcessor.runItems 10
        [ApplicantProcessor.ItemEnv.mk 5 5 "A" false true
            (fun _ => ApplicantProcessor.DlStep.foundOk) none none "1" false,
         ApplicantProcessor.ItemEnv.mk 5 5 "B" false true
            (fun _ => ApplicantProcessor.DlStep.foundOk) none none "1" false]
        (ApplicantProcessor.ProcState.mk 0 [] [] 0 0 false)).2.2
    ∧ List.Chain' (fun a b => a.processedApplicants ⊆ b.processedApplicants)
      (ApplicantProcessor.runItems 10
        [ApplicantProcessor.ItemEnv.mk 5 5 "A" false true
            (fun _ => ApplicantProcessor.DlStep.foundOk) none none "1" false,
         ApplicantProcessor.ItemEnv.mk 5 5 "B" false true
            (fun _ => ApplicantProcessor.DlStep.foundOk) none none "1" false]
        (ApplicantProcessor.ProcState.mk 0 [] [] 0 0 false)).2.2 := by
  have h := c2_monotone_saves 10
    [ApplicantProcessor.ItemEnv.mk 5 5 "A" false true
        (fun _ => ApplicantProcessor.DlStep.foundOk) none none "1" false,
     ApplicantProcessor.ItemEnv.mk 5 5 "B" false true
        (fun _ => ApplicantProcessor.DlStep.foundOk) none none "1" false]
    (ApplicantProcessor.ProcState.mk 0 [] [] 0 0 false)
  exact ⟨h.1, h.2 (by decide)⟩

/-! ### Claim C10 - progress percent is clamped at 100 -/

/-- C10: for every call to updateProgress (every call happens right after
the download counter was incremented, so the counter is at least 1), the
reported progressPercent is at most 100, including when downloadCount
exceeds the configured maximum and when the configured maximum is zero
(where the division yields infinity and the clamp still returns 100). -/
theorem c10_progress_percent_clamped (downloadCount maxCvCount : ℚ)
    (hdc : 1 ≤ downloadCount) :
    jsLeNum (ApplicantProcessor.updateProgressPercent downloadCount maxCvCount) 100 = true := by
  unfold ApplicantProcessor.updateProgressPercent jsDiv
  by_cases hm : maxCvCount = 0
  · have hpos : 0 < downloadCount := lt_of_lt_of_le one_pos hdc
    have hne : ¬downloadCount = 0 := ne_of_gt hpos
    simp [hm, hne, hpos, jsMul100, jsMin, jsLeNum]
  · simp only [hm, if_false, jsMul100, jsMin, jsLeNum]
    simp [min_le_left]

/-- C10 witness: download count 7 with maximum 5 (past the limit) still
reports at most 100. -/
theorem c10_progress_percent_clamped_witness :
    (1 : ℚ) ≤ 7 ∧
      jsLeNum (ApplicantProcessor.updateProgressPercent 7 5) 100 = true :=
  ⟨by norm_num, c10_progress_percent_clamped 7 5 (by norm_num)⟩

/-! ### Claim C9 - pointer path step count and smoothstep easing -/

/-- C9: for every slowMouseMove invocation with the step draw in the unit
interval, the sampled step count lies in the range 10 to 60 (the code
draws it in 30 to 59), and the emitted trajectory is exactly the cubic
Bezier curve through the synthesized control points sampled at the
smoothstep easing t * t * (3 - 2 t) of the uniform step fraction. -/
theorem c9_steps_range_and_smoothstep (p : InteractionUtils.MoveParams)
    (_h0 : 0 ≤ p.rSteps) (h1 : p.rSteps < 1) :
    10 ≤ InteractionUtils.stepsOf p ∧ InteractionUtils.stepsOf p ≤ 60 ∧
    InteractionUtils.slowMouseMovePath p =
      (List.range (InteractionUtils.stepsOf p)).map (fun j =>
        let t := InteractionUtils.smoothstep
          (((j : ℚ) + 1) / (InteractionUtils.stepsOf p : ℚ))
        (InteractionUtils.cubicBezier p.startX
            (InteractionUtils.controlPoints p).1.1
            (InteractionUtils.controlPoints p).2.1
            (InteractionUtils.targetPoint p).1 t,
         InteractionUtils.cubicBezier p.startY
            (InteractionUtils.controlPoints p).1.2
            (InteractionUtils.controlPoints p).2.2
            (InteractionUtils.targetPoint p).2 t)) := by
  refine ⟨?_, ?_, ?_⟩
  · unfold InteractionUtils.stepsOf
    omega
  · unfold InteractionUtils.stepsOf
    have hlt : ⌊p.rSteps * 30⌋ < 30 := by
      rw [Int.floor_lt]
      push_cast
      nlinarith
    omega
  · rfl

/-! ### Claim C5 - extracted identity validity and priority order -/

/-- C5 counterexample: the extraction chain can return a nonempty
identity of length 1. The card title reads the single word application
followed by an exclamation mark: it passes the validity rules (length 12,
no denylisted label), but the cleaning step that runs after validation
strips the word, leaving a bang of length 1 - neither empty nor of length
at least 2, refuting the claimed invariant on the returned identity. -/
theorem c5_cleaned_identity_can_be_short :
    ApplicantNameExtractor.extractName
      (ApplicantNameExtractor.CardDom.mk (some "application!") none none none false) = "!"
    ∧ ("!" : String) ≠ ""
    ∧ ("!" : String).length < 2 := by
  refine ⟨by decide, by decide, by decide⟩

/-- C5 amended: strategies are tried in the fixed priority order and the
returned identity is the post-processed form of the first candidate whose
checked string passes the validity rules (nonempty, trimmed length at
least 2 before cleaning, no denylisted label), the empty string if none
passes or a DOM read throws; the validity rules apply to the candidate
before suffix-cleaning, so the returned string itself can be shorter than
2 characters. -/
theorem c5_extract_first_valid_candidate (d : ApplicantNameExtractor.CardDom)
    (hf : d.readsFail = false) :
    ApplicantNameExtractor.extractName d = ApplicantNameExtractor.extractNameSpec d := by
  obtain ⟨ct, lt, lk, ia, rf⟩ := d
  simp only at hf
  subst hf
  unfold ApplicantNameExtractor.extractName ApplicantNameExtractor.extractNameSpec
    ApplicantNameExtractor.candidates
  cases ct <;> cases lt <;> cases lk <;>
    rcases ia with _ | (_ | alt) <;>
    simp only [ApplicantNameExtractor.extractName.extractName2,
      ApplicantNameExtractor.extractName.extractName3,
      ApplicantNameExtractor.extractName.extractName4,
      List.nil_append, List.append_nil, List.cons_append, List.find?,
      Bool.false_eq_true, if_false] <;>
    split_ifs <;> simp_all [List.find?]

/-- C5 witness: the amended theorem at a concrete card with an invalid
first strategy and a valid second strategy. -/
theorem c5_extract_first_valid_candidate_witness :
    ApplicantNameExtractor.extractName
      (ApplicantNameExtractor.CardDom.mk (some "x") (some "Jane\nEngineer") none none false) =
    ApplicantNameExtractor.extractNameSpec
      (ApplicantNameExtractor.CardDom.mk (some "x") (some "Jane\nEngineer") none none false) :=
  c5_extract_first_valid_candidate
    (ApplicantNameExtractor.CardDom.mk (some "x") (some "Jane\nEngineer") none none false) rfl

/-! ### Claim C7 - collision-free unique file paths -/

/-- Appending one digit multiplies the accumulated value by ten. -/
theorem digitsListVal_append (xs : List Char) (c : Char) :
    digitsListVal (xs ++ [c]) = 10 * digitsListVal xs + digitVal c := by
  simp [digitsListVal, List.foldl_append]

/-- Character facts about decimal digit characters, by finite check. -/
theorem digitChar_facts : ∀ d, d < 10 →
    digitB (Nat.digitChar d) = true ∧ (Nat.digitChar d).isWhitespace = false ∧
    Nat.digitChar d ≠ '-' ∧ Nat.digitChar d ≠ '+' ∧
    digitVal (Nat.digitChar d) = d := by decide

/-- Reading back the emitted digit characters recovers the number,
for any sufficient fuel. -/
theorem digitsListVal_natDecimalGo :
    ∀ fuel n, n ≤ fuel → digitsListVal (natDecimalGo fuel n) = n := by
  intro fuel
  induction fuel with
  | zero =>
    intro n hn
    interval_cases n
    simp [natDecimalGo, digitsListVal]
  | succ fuel ih =>
    intro n hn
    by_cases h0 : n = 0
    · simp [natDecimalGo, h0, digitsListVal]
    · rw [natDecimalGo, if_neg h0]
      rw [digitsListVal_append]
      have hdiv : n / 10 ≤ fuel := by omega
      rw [ih (n / 10) hdiv]
      have hmod : n % 10 < 10 := Nat.mod_lt _ (by norm_num)
      rw [(digitChar_facts _ hmod).2.2.2.2]
      omega

/-- Every emitted character is the digit character of a value below 10. -/
theorem natDecimalGo_chars :
    ∀ fuel n x, x ∈ natDecimalGo fuel n → ∃ d, d < 10 ∧ x = Nat.digitChar d := by
  intro fuel
  induction fuel with
  | zero =>
    intro n x hx
    simp [natDecimalGo] at hx
  | succ fuel ih =>
    intro n x hx
    by_cases h0 : n = 0
    · simp [natDecimalGo, h0] at hx
    · rw [natDecimalGo, if_neg h0] at hx
      rcases List.mem_append.mp hx with h | h
      · exact ih _ x h
      · rcases List.mem_singleton.mp h with rfl
        exact ⟨n % 10, Nat.mod_lt _ (by norm_num), rfl⟩

/-- A positive number yields a nonempty digit list. -/
theorem natDecimalGo_ne_nil (fuel n : Nat) (hn : 0 < n) (hf : 0 < fuel) :
    natDecimalGo fuel n ≠ [] := by
  cases fuel with
  | zero => omega
  | succ fuel =>
    rw [natDecimalGo, if_neg (Nat.pos_iff_ne_zero.mp hn)]
    simp

/-- Injectivity of the decimal representation on positive numbers. -/
theorem natDecimal_inj (m n : Nat) (hm : 0 < m) (hn : 0 < n)
    (h : natDecimal m = natDecimal n) : m = n := by
  rw [natDecimal, natDecimal, if_neg (Nat.pos_iff_ne_zero.mp hm),
    if_neg (Nat.pos_iff_ne_zero.mp hn)] at h
  have hdata : natDecimalGo m m = natDecimalGo n n := List.asString_inj.mp h
  have hv := digitsListVal_natDecimalGo m m le_rfl
  rw [hdata, digitsListVal_natDecimalGo n n le_rfl] at hv
  exact hv.symm

/-- parseInt round trip: the decimal representation of a positive natural
number parses back to it. -/
theorem jsParseInt_natDecimal (n : Nat) (hn : 0 < n) :
    jsParseInt (natDecimal n) = some (n : Int) := by
  have hdata : (natDecimal n).data = natDecimalGo n n := by
    rw [natDecimal, if_neg (Nat.pos_iff_ne_zero.mp hn)]
    rfl
  have hchars := natDecimalGo_chars n n
  have hne : natDecimalGo n n ≠ [] := natDecimalGo_ne_nil n n hn hn
  obtain ⟨c, cs, hcons⟩ := List.exists_cons_of_ne_nil hne
  have hcfacts : digitB c = true ∧ c.isWhitespace = false ∧ c ≠ '-' ∧ c ≠ '+' := by
    obtain ⟨d, hd, rfl⟩ := hchars c (by rw [hcons]; exact List.mem_cons_self c cs)
    obtain ⟨h1, h2, h3, h4, _⟩ := digitChar_facts d hd
    exact ⟨h1, h2, h3, h4⟩
  have halldig : ∀ x ∈ natDecimalGo n n, digitB x = true := by
    intro x hx
    obtain ⟨d, hd, rfl⟩ := hchars x hx
    exact (digitChar_facts d hd).1
  unfold jsParseInt
  rw [hdata, hcons]
  rw [List.dropWhile_cons, hcfacts.2.1]
  simp only [Bool.false_eq_true, if_false]
  have hhead : ((c :: cs).head? = some '-') = False := by
    simp [hcfacts.2.2.1]
  have hhead2 : ((c :: cs).head? = some '+') = False := by
    simp [hcfacts.2.2.2]
  have htake : (c :: cs).takeWhile digitB = c :: cs := by
    apply List.takeWhile_eq_self_iff.mpr
    intro x hx
    exact halldig x (by rw [hcons]; exact hx)
  simp only [hhead, hhead2, or_self, if_false, decide_eq_true_eq]
  rw [htake]
  rw [if_neg (by simp : ¬(c :: cs) = [])]
  have hval : digitsListVal (c :: cs) = n := by
    have := digitsListVal_natDecimalGo n n le_rfl
    rw [hcons] at this
    exact this
  rw [hval]
  simp [hcfacts.2.2.1]


/-- Two equal joined paths under the same directory have equal names. -/
theorem pathJoin_inj (dir n1 n2 : String)
    (h : ApplicantProcessor.pathJoin dir n1 = ApplicantProcessor.pathJoin dir n2) :
    n1 = n2 := by
  unfold ApplicantProcessor.pathJoin at h
  have hd := congrArg String.data h
  rw [String.data_append, String.data_append, String.data_append,
    String.data_append] at hd
  exact String.ext (List.append_cancel_left hd)

/-- The versioned candidate names are injective in the counter. -/
theorem versionedName_inj (base ext : String) (j k : Nat)
    (hj : 0 < j) (hk : 0 < k)
    (h : ApplicantProcessor.versionedName base ext j =
      ApplicantProcessor.versionedName base ext k) : j = k := by
  unfold ApplicantProcessor.versionedName at h
  have hd := congrArg String.data h
  simp only [String.data_append] at hd
  have h1 := List.append_cancel_right hd
  have h2 := List.append_cancel_left h1
  exact natDecimal_inj j k hj hk (String.ext h2)

/-- Distinct versioned candidates yield distinct joined paths. -/
theorem candName_path_inj (dir base ext orig : String) :
    Function.Injective (fun i : Nat =>
      ApplicantProcessor.pathJoin dir
        (ApplicantProcessor.candName base ext orig (i + 1))) := by
  intro i j h
  simp only at h
  have hn := pathJoin_inj dir _ _ h
  unfold ApplicantProcessor.candName at hn
  have := versionedName_inj base ext (i + 2) (j + 2) (by omega) (by omega) hn
  omega

/-- Pigeonhole: among the first length-plus-two candidates there is one
whose joined path is not among the existing files. -/
theorem exists_free_candidate (fs : List String) (dir base ext orig : String) :
    ∃ i, i < fs.length + 2 ∧
      ApplicantProcessor.pathJoin dir (ApplicantProcessor.candName base ext orig i) ∉ fs := by
  by_contra hcon
  push_neg at hcon
  have hall : ∀ i < fs.length + 1,
      ApplicantProcessor.pathJoin dir
        (ApplicantProcessor.candName base ext orig (i + 1)) ∈ fs := by
    intro i hi
    exact hcon (i + 1) (by omega)
  set f : Nat → String := fun i =>
    ApplicantProcessor.pathJoin dir (ApplicantProcessor.candName base ext orig (i + 1))
    with hfdef
  have hnodup : ((List.range (fs.length + 1)).map f).Nodup :=
    (List.nodup_range _).map (candName_path_inj dir base ext orig)
  have hsub : ((List.range (fs.length + 1)).map f).toFinset ⊆ fs.toFinset := by
    intro x hx
    rw [List.mem_toFinset] at hx ⊢
    rcases List.mem_map.mp hx with ⟨i, hi, rfl⟩
    exact hall i (List.mem_range.mp hi)
  have hcard := Finset.card_le_card hsub
  rw [List.toFinset_card_of_nodup hnodup] at hcard
  rw [List.length_map, List.length_range] at hcard
  have := List.toFinset_card_le fs
  omega

/-- Correctness of the candidate loop: started at candidate index idx
with fuel covering a free candidate, it returns the first free candidate
at or after idx, and every candidate skipped on the way did collide. -/
theorem getUniqueFilePathAux_spec (fs : List String) (dir base ext orig : String) :
    ∀ fuel idx,
      (∃ i, i < fuel ∧
        ApplicantProcessor.pathJoin dir
          (ApplicantProcessor.candName base ext orig (idx + i)) ∉ fs) →
      ∃ k, idx ≤ k ∧
        ApplicantProcessor.getUniqueFilePathAux fs dir base ext fuel (idx + 1)
            (ApplicantProcessor.candName base ext orig idx) =
          (ApplicantProcessor.pathJoin dir (ApplicantProcessor.candName base ext orig k),
           ApplicantProcessor.candName base ext orig k) ∧
        ApplicantProcessor.pathJoin dir (ApplicantProcessor.candName base ext orig k) ∉ fs ∧
        ∀ j, idx ≤ j → j < k →
          ApplicantProcessor.pathJoin dir (ApplicantProcessor.candName base ext orig j) ∈ fs := by
  intro fuel
  induction fuel with
  | zero =>
    intro idx h
    rcases h with ⟨i, hi, _⟩
    omega
  | succ fuel ih =>
    intro idx h
    by_cases hp : ApplicantProcessor.pathJoin dir
        (ApplicantProcessor.candName base ext orig idx) ∈ fs
    · have hnext : ApplicantProcessor.versionedName base ext (idx + 1 + 1) =
          ApplicantProcessor.candName base ext orig (idx + 1) := rfl
      have hshift : ∃ i, i < fuel ∧
          ApplicantProcessor.pathJoin dir
            (ApplicantProcessor.candName base ext orig (idx + 1 + i)) ∉ fs := by
        rcases h with ⟨i, hi, hfree⟩
        cases i with
        | zero => exact absurd hp hfree
        | succ i =>
          exact ⟨i, by omega, by
            have : idx + (i + 1) = idx + 1 + i := by omega
            rw [this] at hfree
            exact hfree⟩
      rcases ih (idx + 1) hshift with ⟨k, hk1, hk2, hk3, hk4⟩
      refine ⟨k, by omega, ?_, hk3, ?_⟩
      · rw [ApplicantProcessor.getUniqueFilePathAux, if_pos hp, hnext]
        exact hk2
      · intro j hj1 hj2
        rcases Nat.eq_or_lt_of_le hj1 with rfl | hlt
        · exact hp
        · exact hk4 j hlt hj2
    · refine ⟨idx, le_rfl, ?_, hp, ?_⟩
      · rw [ApplicantProcessor.getUniqueFilePathAux, if_neg hp]
      · intro j hj1 hj2
        omega

/-- C7: the returned path never collides with an existing file; it is
the join of the directory and the returned name; a collision-free
original name is returned unchanged; and in general the returned name is
the first candidate in the sequence original, base v2 ext, base v3 ext,
... (the k-th collision produces suffix v(k+1)) whose path is free,
every earlier candidate having collided. -/
theorem c7_unique_file_path (fs : List String) (dir orig : String) :
    (ApplicantProcessor.getUniqueFilePath fs dir orig).1 ∉ fs
    ∧ (ApplicantProcessor.getUniqueFilePath fs dir orig).1 =
        ApplicantProcessor.pathJoin dir (ApplicantProcessor.getUniqueFilePath fs dir orig).2
    ∧ (ApplicantProcessor.pathJoin dir orig ∉ fs →
        ApplicantProcessor.getUniqueFilePath fs dir orig =
          (ApplicantProcessor.pathJoin dir orig, orig))
    ∧ ∃ k,
        (ApplicantProcessor.getUniqueFilePath fs dir orig).2 =
          ApplicantProcessor.candName (ApplicantProcessor.splitExt orig).1
            (ApplicantProcessor.splitExt orig).2 orig k
        ∧ (∀ j, j < k →
            ApplicantProcessor.pathJoin dir
              (ApplicantProcessor.candName (ApplicantProcessor.splitExt orig).1
                (ApplicantProcessor.splitExt orig).2 orig j) ∈ fs) := by
  have hzero : ApplicantProcessor.candName (ApplicantProcessor.splitExt orig).1
      (ApplicantProcessor.splitExt orig).2 orig 0 = orig := rfl
  have hfree := exists_free_candidate fs dir (ApplicantProcessor.splitExt orig).1
    (ApplicantProcessor.splitExt orig).2 orig
  have hex : ∃ i, i < fs.length + 2 ∧
      ApplicantProcessor.pathJoin dir
        (ApplicantProcessor.candName (ApplicantProcessor.splitExt orig).1
          (ApplicantProcessor.splitExt orig).2 orig (0 + i)) ∉ fs := by
    rcases hfree with ⟨i, hi, hf⟩
    exact ⟨i, hi, by rw [Nat.zero_add]; exact hf⟩
  have hspec := getUniqueFilePathAux_spec fs dir (ApplicantProcessor.splitExt orig).1
    (ApplicantProcessor.splitExt orig).2 orig (fs.length + 2) 0 hex
  rcases hspec with ⟨k, _, hk2, hk3, hk4⟩
  have hmain : ApplicantProcessor.getUniqueFilePath fs dir orig =
      (ApplicantProcessor.pathJoin dir
        (ApplicantProcessor.candName (ApplicantProcessor.splitExt orig).1
          (ApplicantProcessor.splitExt orig).2 orig k),
       ApplicantProcessor.candName (ApplicantProcessor.splitExt orig).1
        (ApplicantProcessor.splitExt orig).2 orig k) := by
    unfold ApplicantProcessor.getUniqueFilePath
    rw [← hzero]
    exact hk2
  refine ⟨?_, ?_, ?_, ?_⟩
  · rw [hmain]
    exact hk3
  · rw [hmain]
  · intro horig
    have hk0 : k = 0 := by
      by_contra hne
      exact horig (by
        have := hk4 0 (Nat.le_refl 0) (by omega)
        rw [hzero] at this
        exact this)
    rw [hmain, hk0, hzero]
  · exact ⟨k, by rw [hmain], fun j hj => hk4 j (Nat.zero_le j) hj⟩

/-- C7 witness: a directory where the original name is free is returned
unchanged, and a directory with two collisions yields the v3 suffix with
a free path. -/
theorem c7_unique_file_path_witness :
    (ApplicantProcessor.getUniqueFilePath ["d/b.pdf"] "d" "a.pdf" =
      (ApplicantProcessor.pathJoin "d" "a.pdf", "a.pdf"))
    ∧ (ApplicantProcessor.getUniqueFilePath ["d/a.pdf", "d/a_v2.pdf"] "d" "a.pdf").1 ∉
        (["d/a.pdf", "d/a_v2.pdf"] : List String) := by
  constructor
  · exact (c7_unique_file_path ["d/b.pdf"] "d" "a.pdf").2.2.1 (by decide)
  · exact (c7_unique_file_path ["d/a.pdf", "d/a_v2.pdf"] "d" "a.pdf").1

/-! ### Claim C8 - getActivePageNumber never throws and defaults to 1 -/

/-- C8: getActivePageNumber never throws (it is a total function of the
observable read), returns 1 whenever the active-page indicator is absent
or reading it throws, and otherwise returns the parseInt of the indicator
text; in particular a positive decimal page number is returned exactly. -/
theorem c8_active_page_number_total (d : PaginationManager.ActivePageDom) :
    ((d.indicator = none ∨ (∃ e, d.indicator = some (Except.error e))) →
      PaginationManager.getActivePageNumber d = some 1)
    ∧ (∀ s, d.indicator = some (Except.ok s) →
      PaginationManager.getActivePageNumber d = jsParseInt s)
    ∧ (∀ n : Nat, 0 < n → d.indicator = some (Except.ok (natDecimal n)) →
      PaginationManager.getActivePageNumber d = some (n : Int)) := by
  refine ⟨?_, ?_, ?_⟩
  · rintro (h | ⟨e, h⟩) <;> simp [PaginationManager.getActivePageNumber, h]
  · intro s h
    simp [PaginationManager.getActivePageNumber, h]
  · intro n hn h
    simp [PaginationManager.getActivePageNumber, h, jsParseInt_natDecimal n hn]

/-- C8 witness: the indicator reading 12 yields page 12, and an absent
indicator yields the default 1. -/
theorem c8_active_page_number_witness :
    PaginationManager.getActivePageNumber
      (PaginationManager.ActivePageDom.mk (some (Except.ok "12"))) = some 12
    ∧ PaginationManager.getActivePageNumber
      (PaginationManager.ActivePageDom.mk none) = some 1 := by
  constructor
  · have h12 : natDecimal 12 = "12" := by decide
    have h := (c8_active_page_number_total
      (PaginationManager.ActivePageDom.mk (some (Except.ok "12")))).2.2 12
      (by norm_num) (by rw [h12])
    exact h
  · exact (c8_active_page_number_total
      (PaginationManager.ActivePageDom.mk none)).1 (Or.inl rfl)

/-! ### Claim C4 - seek terminates within the iteration bound -/

/-- Invariant of the best-jump fold: a returned page button was either
rendered in the scanned window and lies strictly between the current page
and the target, or was already the accumulator. -/
theorem bestJump_fold_spec (cur target : Nat) :
    ∀ (w : List (Option Nat)) (acc : Option Nat) (n : Nat),
      w.foldl (fun acc it =>
        match it with
        | none => acc
        | some m =>
          if cur < m && m < target && (match acc with
              | none => true
              | some b => decide (b < m)) then some m
          else acc) acc = some n →
      ((some n ∈ w ∧ cur < n ∧ n < target) ∨ acc = some n) := by
  intro w
  induction w with
  | nil =>
    intro acc n h
    exact Or.inr h
  | cons x w ih =>
    intro acc n h
    rw [List.foldl_cons] at h
    rcases ih _ n h with ⟨hmem, hlo, hhi⟩ | heq
    · exact Or.inl ⟨List.mem_cons_of_mem _ hmem, hlo, hhi⟩
    · cases x with
      | none => exact Or.inr heq
      | some m =>
        dsimp only at heq
        split at heq
        · rename_i hcond
          cases heq
          simp only [Bool.and_eq_true, decide_eq_true_eq] at hcond
          exact Or.inl ⟨List.mem_cons_self _ _, hcond.1.1, hcond.1.2⟩
        · exact Or.inr heq

/-- What a successful best-jump lookup guarantees: the found page button
is rendered and lies strictly between the current page and the target. -/
theorem bestJump_spec (w : List (Option Nat)) (cur target n : Nat)
    (h : PaginationManager.bestJump w cur target = some n) :
    some n ∈ w ∧ cur < n ∧ n < target := by
  unfold PaginationManager.bestJump at h
  rcases bestJump_fold_spec cur target w none n h with hk | hk
  · exact hk
  · cases hk

/-- With the dedicated Next button rendered, switchToNextPage advances
exactly one page when a further page exists. -/
theorem switchToNextPage_succ (env : PaginationManager.PagEnv) (a : Nat)
    (hbtn : env.nextBtn a = true) (hlt : a < env.total) :
    PaginationManager.switchToNextPage env a = (true, a + 1) := by
  unfold PaginationManager.switchToNextPage PaginationManager.clickTargetOf
  rw [if_pos hbtn]
  unfold PaginationManager.nextClickEffect
  rw [if_pos hlt]
  dsimp only
  rw [if_pos (by omega : a < a + 1)]

/-- With the dedicated Next button rendered but no further page, the
post-click wait times out: switchToNextPage fails without moving. -/
theorem switchToNextPage_last (env : PaginationManager.PagEnv) (a : Nat)
    (hbtn : env.nextBtn a = true) (hge : ¬a < env.total) :
    PaginationManager.switchToNextPage env a = (false, a) := by
  unfold PaginationManager.switchToNextPage PaginationManager.clickTargetOf
  rw [if_pos hbtn]
  unfold PaginationManager.nextClickEffect
  rw [if_neg hge]
  dsimp only
  rw [if_neg (by omega : ¬a < a)]

/-- The loop never runs more iterations than it has fuel. -/
theorem navLoop_iters_le (env : PaginationManager.PagEnv) (t : Nat) :
    ∀ fuel cur act iters,
      (PaginationManager.navLoop env t fuel cur act iters).iters ≤ iters + fuel := by
  intro fuel
  induction fuel with
  | zero =>
    intro cur act iters
    rw [PaginationManager.navLoop]
    split
    · simp
    · simp
  | succ fuel ih =>
    intro cur act iters
    rw [PaginationManager.navLoop]
    split
    · simp
    · split
      · simp
      · rcases hbj : PaginationManager.bestJump (env.window act) cur t with _ | n
        · simp only [hbj]
          split
          · simp
          · rcases hsw : PaginationManager.switchToNextPage env act with ⟨b, a2⟩
            cases b
            · simp only [hsw]
              simp
            · simp only [hsw]
              calc (PaginationManager.navLoop env t fuel a2 a2 (iters + 1)).iters
                  ≤ iters + 1 + fuel := ih a2 a2 (iters + 1)
                _ ≤ iters + (fuel + 1) := by omega
        · simp only [hbj]
          calc (PaginationManager.navLoop env t fuel n n (iters + 1)).iters
              ≤ iters + 1 + fuel := ih n n (iters + 1)
            _ ≤ iters + (fuel + 1) := by omega

/-- Reachable targets: starting at or below a target that exists and is
within the remaining fuel, the loop stops exactly on the target with no
warning. -/
theorem navLoop_reaches (env : PaginationManager.PagEnv) (t : Nat)
    (hnext : ∀ a, env.nextBtn a = true) :
    ∀ fuel act iters, act ≤ t → t ≤ env.total → t ≤ act + fuel →
      (PaginationManager.navLoop env t fuel act act iters).active = t
      ∧ (PaginationManager.navLoop env t fuel act act iters).warned = false := by
  intro fuel
  induction fuel with
  | zero =>
    intro act iters hle htot hfuel
    rw [PaginationManager.navLoop]
    rw [if_pos (by omega : t ≤ act)]
    exact ⟨show act = t by omega, rfl⟩
  | succ fuel ih =>
    intro act iters hle htot hfuel
    rw [PaginationManager.navLoop]
    by_cases hc : t ≤ act
    · rw [if_pos hc]
      exact ⟨show act = t by omega, rfl⟩
    · rw [if_neg hc]
      by_cases hex : (env.window act).contains (some t) = true
      · rw [if_pos hex]
        exact ⟨rfl, rfl⟩
      · rw [if_neg hex]
        rcases hbj : PaginationManager.bestJump (env.window act) act t with _ | n
        · simp only [hbj]
          rw [if_neg hc]
          have hsw := switchToNextPage_succ env act (hnext act) (by omega)
          rw [hsw]
          exact ih (act + 1) (iters + 1) (by omega) htot (by omega)
        · simp only [hbj]
          have hspec := bestJump_spec (env.window act) act t n hbj
          exact ih n (iters + 1) (by omega) htot (by omega)

/-- Unreachable targets: past the last page the loop always stops with a
warning, at a best-effort page between the start and the last page. -/
theorem navLoop_unreachable (env : PaginationManager.PagEnv) (t : Nat)
    (hnext : ∀ a, env.nextBtn a = true)
    (hwin : ∀ a n, some n ∈ env.window a → n ≤ env.total)
    (htot : env.total < t) :
    ∀ fuel act iters, act ≤ env.total →
      (PaginationManager.navLoop env t fuel act act iters).warned = true
      ∧ act ≤ (PaginationManager.navLoop env t fuel act act iters).active
      ∧ (PaginationManager.navLoop env t fuel act act iters).active ≤ env.total := by
  intro fuel
  induction fuel with
  | zero =>
    intro act iters hact
    rw [PaginationManager.navLoop]
    rw [if_neg (by omega : ¬t ≤ act)]
    exact ⟨rfl, le_rfl, hact⟩
  | succ fuel ih =>
    intro act iters hact
    rw [PaginationManager.navLoop]
    rw [if_neg (by omega : ¬t ≤ act)]
    have hex : ¬(env.window act).contains (some t) = true := by
      intro hc
      have hmem : some t ∈ env.window act := by
        simpa using List.contains_iff_exists_mem_beq.mp hc
      have := hwin act t hmem
      omega
    rw [if_neg hex]
    rcases hbj : PaginationManager.bestJump (env.window act) act t with _ | n
    · simp only [hbj]
      rw [if_neg (by omega : ¬t ≤ act)]
      by_cases hlt : act < env.total
      · rw [switchToNextPage_succ env act (hnext act) hlt]
        dsimp only
        have := ih (act + 1) (iters + 1) (by omega)
        exact ⟨this.1, by omega, this.2.2⟩
      · rw [switchToNextPage_last env act (hnext act) hlt]
        dsimp only
        exact ⟨rfl, le_rfl, hact⟩
    · simp only [hbj]
      have hspec := bestJump_spec (env.window act) act t n hbj
      have hn : n ≤ env.total := hwin act n hspec.1
      have := ih n (iters + 1) hn
      exact ⟨this.1, by omega, this.2.2⟩

/-- C4: navigateToPage always terminates within the iteration bound of
50, never raising an error (it is a total function of the world model);
when the target page exists and is in reach of the bound, it stops with
the active page equal to the target and no warning; when the target is
beyond the last page, it stops at a best-effort page no further than the
last page and emits a warning instead of hanging or raising. -/
theorem c4_navigate_to_page_bounded (env : PaginationManager.PagEnv)
    (a0 t : Nat)
    (hnext : ∀ a, env.nextBtn a = true)
    (hwin : ∀ a n, some n ∈ env.window a → n ≤ env.total) :
    (PaginationManager.navigateToPage env a0 t).iters ≤ 50
    ∧ (1 ≤ a0 → a0 ≤ t → t ≤ env.total → t ≤ a0 + 50 →
        (PaginationManager.navigateToPage env a0 t).active = t
        ∧ (PaginationManager.navigateToPage env a0 t).warned = false)
    ∧ (1 ≤ a0 → a0 ≤ env.total → env.total < t →
        (PaginationManager.navigateToPage env a0 t).warned = true
        ∧ a0 ≤ (PaginationManager.navigateToPage env a0 t).active
        ∧ (PaginationManager.navigateToPage env a0 t).active ≤ env.total) := by
  unfold PaginationManager.navigateToPage
  by_cases h1 : t ≤ 1
  · rw [if_pos h1]
    refine ⟨by simp, ?_, ?_⟩
    · intro ha0 hat htot hfuel
      exact ⟨show a0 = t by omega, rfl⟩
    · intro ha0 hat htot
      omega
  · rw [if_neg h1]
    refine ⟨?_, ?_, ?_⟩
    · have := navLoop_iters_le env t 50 a0 a0 0
      omega
    · intro ha0 hat htot hfuel
      exact navLoop_reaches env t hnext 50 a0 0 hat htot (by omega)
    · intro ha0 hat htot
      exact navLoop_unreachable env t hnext hwin htot 50 a0 0 hat

/-- C4 witness: a five-page world with every page button visible; seeking
page 4 from page 1 arrives exactly, and seeking page 7 stops at page 5
with a warning. -/
theorem c4_navigate_to_page_bounded_witness :
    (PaginationManager.navigateToPage
      (PaginationManager.PagEnv.mk 5
        (fun _ => [some 1, some 2, some 3, some 4, some 5]) (fun _ => true))
      1 4).active = 4
    ∧ (PaginationManager.navigateToPage
      (PaginationManager.PagEnv.mk 5
        (fun _ => [some 1, some 2, some 3, some 4, some 5]) (fun _ => true))
      1 7).warned = true := by
  have hwin : ∀ a n, some n ∈
      (PaginationManager.PagEnv.mk 5
        (fun _ => [some 1, some 2, some 3, some 4, some 5]) (fun _ => true)).window a →
      n ≤ (PaginationManager.PagEnv.mk 5
        (fun _ => [some 1, some 2, some 3, some 4, some 5]) (fun _ => true)).total := by
    intro a n h
    simp only [List.mem_cons, List.not_mem_nil, or_false, Option.some.injEq] at h
    rcases h with rfl | rfl | rfl | rfl | rfl <;> decide
  have h4 := c4_navigate_to_page_bounded
    (PaginationManager.PagEnv.mk 5
      (fun _ => [some 1, some 2, some 3, some 4, some 5]) (fun _ => true))
    1 4 (fun _ => rfl) hwin
  have h7 := c4_navigate_to_page_bounded
    (PaginationManager.PagEnv.mk 5
      (fun _ => [some 1, some 2, some 3, some 4, some 5]) (fun _ => true))
    1 7 (fun _ => rfl) hwin
  exact ⟨(h4.2.1 (by decide) (by decide) (by decide) (by decide)).1,
    (h7.2.2 (by decide) (by decide) (by decide)).1⟩

/-- C9 witness: the theorem applied at a concrete draw. -/
theorem c9_steps_range_witness :
    10 ≤ InteractionUtils.stepsOf
        (InteractionUtils.MoveParams.mk 0 0 10 10 0 0 5 0 0 0 0 0 0 (1/2)) ∧
    InteractionUtils.stepsOf
        (InteractionUtils.MoveParams.mk 0 0 10 10 0 0 5 0 0 0 0 0 0 (1/2)) ≤ 60 := by
  have h := c9_steps_range_and_smoothstep
    (InteractionUtils.MoveParams.mk 0 0 10 10 0 0 5 0 0 0 0 0 0 (1/2))
    (by norm_num) (by norm_num)
  exact ⟨h.1, h.2.1⟩

end CvDl
